import Mathlib

/-!
MPIPortsCommunication: connection establishment and teardown.

A shallow embedding of `src/com/MPIPortsCommunication.cpp`.

* The object's members become the fields of `MPIPortsCommunication`.
* `std::map<int, MPI_Comm>` is a key-ascending association list (`StdMap`), so
  that iteration (in `closeConnection`) visits the entries in key order.
* `std::set<int>` is a strictly ascending list of keys (`StdSet`).
* Calls into the MPI transport and the address Publisher are recorded, in
  program order, as a list of `Action`; what these calls return is supplied as
  an explicit environment (`Incoming` connections on the accepting side, a
  `Requester` environment on the connecting side).
* A member function returns an `Outcome`: it returned normally, a `CHECK`
  failed, an `assertion` failed, or a blocking transport call never returned.
* The scoped helper objects (change of the directory prefix, removal of the
  published file at scope exit) and the `TRACE`/`DEBUG` output do not touch the
  members; of the Publisher only the `write` and `read` calls are recorded.
* A C `int` is an `Int` (with `isInt32` where its range matters); a `size_t`
  is a `Nat` with the wrap-around or byte overwrite written out.
-/

namespace precice
namespace com

/-! ## Transport handles and recorded actions -/

/-- An MPI communicator handle: `MPI_COMM_NULL` or a live handle. -/
inductive MPI_Comm where
  | null : MPI_Comm
  | comm (id : Nat) : MPI_Comm
  deriving DecidableEq, Repr

/-- The calls made on the transport and on the address Publisher. -/
inductive Action where
  | openPort (port : String) : Action
  | publish (directory key port : String) : Action
  | read (directory key port : String) : Action
  | accept (port : String) (c : MPI_Comm) : Action
  | connect (port : String) (c : MPI_Comm) : Action
  | recv (c : MPI_Comm) (v : Int) : Action
  | send (c : MPI_Comm) (v : Int) : Action
  | disconnect (c : MPI_Comm) : Action
  | closePort (port : String) : Action
  deriving DecidableEq, Repr

/-! ## std::map<int, MPI_Comm> -/

/-- The entries of a `std::map<int, MPI_Comm>`, in iteration (ascending key) order. -/
abbrev StdMap := List (Int × MPI_Comm)

namespace StdMap

/-- The keys, in iteration order. -/
def keys (m : StdMap) : List Int := m.map Prod.fst

/-- The member `size()`. -/
def size (m : StdMap) : Nat := m.length

/-- The member `count(k)`: 1 when the key is present, 0 otherwise. -/
def count (m : StdMap) (k : Int) : Nat :=
  match m with
  | [] => 0
  | (k', _) :: rest => if k' = k then 1 else count rest k

/-- The member `at(k)`: the mapped value, `none` standing for `std::out_of_range`. -/
def at? (m : StdMap) (k : Int) : Option MPI_Comm :=
  match m with
  | [] => none
  | (k', v) :: rest => if k' = k then some v else at? rest k

/-- The statement `m[k] = v`: overwrite the value of an existing key, otherwise
insert the entry at its place in key order. -/
def assign (m : StdMap) (k : Int) (v : MPI_Comm) : StdMap :=
  match m with
  | [] => [(k, v)]
  | (k', v') :: rest =>
    if k < k' then (k, v) :: (k', v') :: rest
    else if k = k' then (k, v) :: rest
    else (k', v') :: assign rest k v

/-- The container invariant: keys strictly ascending (hence unique). -/
def WF (m : StdMap) : Prop := (keys m).Pairwise (fun a b => a < b)

end StdMap

/-! ## std::set<int> -/

/-- Insertion into the ascending element list of a `std::set<int>`. -/
def setInsert (x : Int) : List Int → List Int
  | [] => [x]
  | y :: rest =>
    if x < y then x :: y :: rest
    else if x = y then y :: rest
    else y :: setInsert x rest

/-- A `std::set<int>`: its elements in iteration order, strictly ascending. -/
structure StdSet where
  elems : List Int
  ascending : elems.Pairwise (fun a b => a < b)

/-! ## Machine integers -/

/-- Range of a C `int` (32 bits, two's complement). -/
def isInt32 (v : Int) : Prop := -2147483648 ≤ v ∧ v < 2147483648

instance (v : Int) : Decidable (isInt32 v) := by
  unfold isInt32; exact inferInstance

/-- The effect of `MPI_Recv(&x, 1, MPI_INT, ...)` on a 64-bit `size_t x`
(little-endian LP64): the four received bytes replace the low-order 32 bits of
`x`, read back as unsigned; the high-order 32 bits keep their contents. -/
def recvIntIntoSizeT (old : Nat) (v : Int) : Nat :=
  (old / 4294967296) * 4294967296 + (v % 4294967296).toNat

/-- Pre-increment of a `size_t`: wraps at 2^64. -/
def sizeTSucc (n : Nat) : Nat := (n + 1) % 18446744073709551616

/-! ## The object and the results of its member functions -/

/-- The data members of the class. -/
structure MPIPortsCommunication where
  _addressDirectory : String
  _portName : String
  _isAcceptor : Bool
  _isConnected : Bool
  _communicators : StdMap
  deriving DecidableEq, Repr

/-- An object together with the transport actions performed so far. -/
structure Run where
  self : MPIPortsCommunication
  log : List Action
  deriving DecidableEq, Repr

/-- The blocking transport calls the accepting side waits in. -/
inductive BlockingCall where
  | accept : BlockingCall
  | recv : BlockingCall
  deriving DecidableEq, Repr

/-- How a member function ends: it returned, a `CHECK` failed, an `assertion`
failed, or it waits for ever in a blocking call whose peer never appears. -/
inductive Outcome where
  | returned (r : Run) : Outcome
  | checkFailed (message : String) (r : Run) : Outcome
  | assertionFailed (r : Run) : Outcome
  | blocked (call : BlockingCall) (r : Run) : Outcome
  deriving DecidableEq, Repr

namespace Outcome

/-- The object and log at the point where the call ended. -/
def run : Outcome → Run
  | returned r => r
  | checkFailed _ r => r
  | assertionFailed r => r
  | blocked _ r => r

/-- The call returned normally. -/
def isReturned : Outcome → Bool
  | returned _ => true
  | _ => false

/-- The call ended in a failed `CHECK`. -/
def isCheckFailed : Outcome → Bool
  | checkFailed _ _ => true
  | _ => false

end Outcome

/-- Modelled from the spec: the `CHECK(cond, message)` macro of the missing
logging header. A failed check reports `message` and aborts the establishment
attempt: the member function is left at that point, with the object as it is
then. -/
def CHECK (cond : Bool) (message : String) (r : Run) : Except Outcome Unit :=
  if cond then pure () else throw (Outcome.checkFailed message r)

/-- Modelled from the spec: the `assertion(cond)` macro of the missing
assertion header. Calling an entry point in a state that violates the asserted
condition is a fatal misuse: the member function is left at that point. -/
def assertion (cond : Bool) (r : Run) : Except Outcome Unit :=
  if cond then pure () else throw (Outcome.assertionFailed r)

/-- Modelled from the spec: the member initialisers of the missing header. A new
object is Disconnected, has opened no endpoint and owns no channel. The
constructor body replaces an empty address directory by ".". -/
def MPIPortsCommunication.new (addressDirectory : String) : MPIPortsCommunication :=
  { _addressDirectory := if addressDirectory.isEmpty then "." else addressDirectory
    _portName := ""
    _isAcceptor := false
    _isConnected := false
    _communicators := [] }

/-- The member `isConnected()` of the base class. -/
def MPIPortsCommunication.isConnected (s : MPIPortsCommunication) : Bool := s._isConnected

/-! ## Environments -/

/-- A connection that `MPI_Comm_accept` returns: its handle and the integers
the peer sends on it, in order. -/
structure Incoming where
  communicator : MPI_Comm
  sent : List Int
  deriving DecidableEq, Repr

/-- What the collaborators return to a connecting process: the address read for
a key in a directory, the handle `MPI_Comm_connect` gives for an address, and
the integer the peer replies with on a handle. -/
structure Requester where
  read : String → String → String
  connect : String → MPI_Comm
  reply : MPI_Comm → Int

/-! ## Address file names -/

/-- Key used by `acceptConnection` and `requestConnection`. -/
def addressFileName (acceptorName requesterName : String) : String :=
  "." ++ requesterName ++ "-" ++ acceptorName ++ ".address"

/-- Key used by `acceptConnectionAsServer` and `requestConnectionAsClient`. -/
def addressFileNameRanked (acceptorName requesterName : String) (acceptorRank : Int) : String :=
  "." ++ requesterName ++ "-" ++ acceptorName ++ "-" ++ toString acceptorRank ++ ".address"

/-! ## Member functions -/

/-- Append transport actions to the log. -/
def Run.act (r : Run) (as : List Action) : Run := { r with log := r.log ++ as }

/-- The statement `_communicators[rank] = communicator`. -/
def Run.register (r : Run) (rank : Int) (c : MPI_Comm) : Run :=
  { r with self := { r.self with _communicators := r.self._communicators.assign rank c } }

/-- A new object with nothing done on the transport yet. -/
def Run.fresh (addressDirectory : String) : Run :=
  { self := MPIPortsCommunication.new addressDirectory, log := [] }

/-- The member `getRemoteCommunicatorSize()`; `none` is the failed assertion. -/
def getRemoteCommunicatorSize (s : MPIPortsCommunication) : Option Nat :=
  if s.isConnected then some s._communicators.size else none

/-- The local variables of `acceptConnection` that live across loop iterations. -/
structure AcceptLocals where
  peerCurrent : Nat
  peerCount : Nat
  requesterCommunicatorSize : Nat
  deriving DecidableEq, Repr

/-- One execution of the body of the do-while loop of `acceptConnection`, on the
connection that `MPI_Comm_accept` returns. -/
def acceptBody (acceptorRank : Int) (c : Incoming) (v : AcceptLocals) (r : Run) :
    Except Outcome (AcceptLocals × Run) := do
  let r := r.act [Action.accept r.self._portName c.communicator]
  match c.sent with
  | [] => throw (Outcome.blocked BlockingCall.recv r)
  | [requesterRank] =>
    throw (Outcome.blocked BlockingCall.recv (r.act [Action.recv c.communicator requesterRank]))
  | requesterRank :: declared :: _ =>
    let requesterCommunicatorSize := recvIntIntoSizeT v.requesterCommunicatorSize declared
    let r := r.act [Action.recv c.communicator requesterRank,
                    Action.recv c.communicator declared,
                    Action.send c.communicator acceptorRank]
    let peerCount := if v.peerCurrent = 0 then requesterCommunicatorSize else v.peerCount
    CHECK (decide (requesterCommunicatorSize > 0))
      "Requester communicator size has to be > 0!" r
    CHECK (decide (requesterCommunicatorSize = peerCount))
      "Requester communicator sizes are inconsistent!" r
    CHECK (decide (r.self._communicators.count requesterRank = 0))
      ("Duplicate request to connect by same rank (" ++ toString requesterRank ++ ")!") r
    pure ({ peerCurrent := v.peerCurrent, peerCount := peerCount,
            requesterCommunicatorSize := requesterCommunicatorSize },
          r.register requesterRank c.communicator)

/-- The do-while loop of `acceptConnection` followed by `_isConnected = true`.
The list holds the connections that `MPI_Comm_accept` will return, in order;
when it is used up the next accept never returns. -/
def acceptLoop (acceptorRank : Int) : List Incoming → AcceptLocals → Run → Outcome
  | [], _, r => Outcome.blocked BlockingCall.accept r
  | c :: rest, v, r =>
    match acceptBody acceptorRank c v r with
    | Except.error o => o
    | Except.ok (v, r) =>
      let peerCurrent := sizeTSucc v.peerCurrent
      if peerCurrent < v.requesterCommunicatorSize then
        acceptLoop acceptorRank rest { v with peerCurrent := peerCurrent } r
      else
        Outcome.returned { r with self := { r.self with _isConnected := true } }

/-- The member `acceptConnection`. `port` is the name `MPI_Open_port` gives. -/
def acceptConnection (acceptorName requesterName : String) (acceptorRank : Int)
    (port : String) (incoming : List Incoming) (r : Run) : Outcome :=
  match assertion (!r.self.isConnected) r with
  | Except.error o => o
  | Except.ok _ =>
    let r : Run := { r with self := { r.self with _isAcceptor := true } }
    let r : Run := { self := { r.self with _portName := port },
                     log := r.log ++ [Action.openPort port] }
    let r := r.act [Action.publish r.self._addressDirectory
                      (addressFileName acceptorName requesterName) r.self._portName]
    acceptLoop acceptorRank incoming
      { peerCurrent := 0, peerCount := 0, requesterCommunicatorSize := 0 } r

/-- The for loop of `acceptConnectionAsServer` followed by `_isConnected = true`.
`remaining` is the number of iterations left. -/
def serverLoop : Nat → List Incoming → Run → Outcome
  | 0, _, r => Outcome.returned { r with self := { r.self with _isConnected := true } }
  | _ + 1, [], r => Outcome.blocked BlockingCall.accept r
  | n + 1, c :: rest, r =>
    let r := r.act [Action.accept r.self._portName c.communicator]
    match c.sent with
    | [] => Outcome.blocked BlockingCall.recv r
    | requesterRank :: _ =>
      let r := r.act [Action.recv c.communicator requesterRank]
      serverLoop n rest (r.register requesterRank c.communicator)

/-- The member `acceptConnectionAsServer`. -/
def acceptConnectionAsServer (acceptorName requesterName : String) (acceptorRank : Int)
    (requesterCommunicatorSize : Int) (port : String) (incoming : List Incoming)
    (r : Run) : Outcome :=
  match CHECK (decide (requesterCommunicatorSize > 0))
      "Requester communicator size has to be > 0!" r with
  | Except.error o => o
  | Except.ok _ =>
    match assertion (!r.self.isConnected) r with
    | Except.error o => o
    | Except.ok _ =>
      let r : Run := { r with self := { r.self with _isAcceptor := true } }
      let r : Run := { self := { r.self with _portName := port },
                       log := r.log ++ [Action.openPort port] }
      let r := r.act [Action.publish r.self._addressDirectory
                        (addressFileNameRanked acceptorName requesterName acceptorRank)
                        r.self._portName]
      serverLoop requesterCommunicatorSize.toNat incoming r

/-- The member `requestConnection`. -/
def requestConnection (env : Requester) (acceptorName requesterName : String)
    (requesterRank requesterCommunicatorSize : Int) (r : Run) : Outcome :=
  match assertion (!r.self.isConnected) r with
  | Except.error o => o
  | Except.ok _ =>
    let r : Run := { r with self := { r.self with _isAcceptor := false } }
    let key := addressFileName acceptorName requesterName
    let port := env.read r.self._addressDirectory key
    let r : Run := { self := { r.self with _portName := port },
                     log := r.log ++ [Action.read r.self._addressDirectory key port] }
    let communicator := env.connect r.self._portName
    let r := r.act [Action.connect r.self._portName communicator]
    let r : Run := { r with self := { r.self with _isConnected := true } }
    let r := r.act [Action.send communicator requesterRank,
                    Action.send communicator requesterCommunicatorSize,
                    Action.recv communicator (env.reply communicator)]
    Outcome.returned (r.register 0 communicator)

/-- One execution of the body of the range-for loop of `requestConnectionAsClient`. -/
def clientBody (env : Requester) (acceptorName requesterName : String)
    (requesterRank : Int) (r : Run) (acceptorRank : Int) : Run :=
  let key := addressFileNameRanked acceptorName requesterName acceptorRank
  let port := env.read r.self._addressDirectory key
  let r : Run := { self := { r.self with _portName := port },
                   log := r.log ++ [Action.read r.self._addressDirectory key port] }
  let communicator := env.connect r.self._portName
  let r := r.act [Action.connect r.self._portName communicator]
  let r := r.register acceptorRank communicator
  r.act [Action.send communicator requesterRank]

/-- The member `requestConnectionAsClient`. -/
def requestConnectionAsClient (env : Requester) (acceptorName requesterName : String)
    (acceptorRanks : StdSet) (requesterRank : Int) (r : Run) : Outcome :=
  match assertion (!r.self.isConnected) r with
  | Except.error o => o
  | Except.ok _ =>
    let r : Run := { r with self := { r.self with _isAcceptor := false } }
    let r := acceptorRanks.elems.foldl (clientBody env acceptorName requesterName requesterRank) r
    Outcome.returned { r with self := { r.self with _isConnected := true } }

/-- The member `closeConnection`. `MPI_Comm_disconnect` is called on each mapped
handle in iteration order and leaves `MPI_COMM_NULL` in it. -/
def closeConnection (r : Run) : Run :=
  if !r.self.isConnected then r
  else
    let r : Run :=
      { self := { r.self with
                  _communicators := r.self._communicators.map (fun e => (e.1, MPI_Comm.null)) },
        log := r.log ++ r.self._communicators.map (fun e => Action.disconnect e.2) }
    let r := if r.self._isAcceptor then r.act [Action.closePort r.self._portName] else r
    { r with self := { r.self with _isConnected := false } }

/-- The destructor. -/
def destructor (r : Run) : Run := closeConnection r

/-- The member `communicator(rank)`: the result of `_communicators.at(rank)`
(`none` for `std::out_of_range`) and the object afterwards. -/
def communicator (s : MPIPortsCommunication) (rank : Int) :
    Option MPI_Comm × MPIPortsCommunication :=
  (s._communicators.at? rank, s)

/-- The member `rank(rank)`. -/
def rank (_rank : Int) : Int := 0

/-! ## Observations on logs and scenarios -/

/-- Number of `MPI_Comm_accept` calls in a log. -/
def acceptCount : List Action → Nat
  | [] => 0
  | Action.accept _ _ :: rest => acceptCount rest + 1
  | _ :: rest => acceptCount rest

/-- The `MPI_Close_port` calls in a log. -/
def closedPorts : List Action → List String
  | [] => []
  | Action.closePort p :: rest => p :: closedPorts rest
  | _ :: rest => closedPorts rest

/-- The `MPI_Open_port` calls in a log. -/
def openedPorts : List Action → List String
  | [] => []
  | Action.openPort p :: rest => p :: openedPorts rest
  | _ :: rest => openedPorts rest

/-- The keys read from the address directory, in order. -/
def readKeys : List Action → List String
  | [] => []
  | Action.read _ key _ :: rest => key :: readKeys rest
  | _ :: rest => readKeys rest

/-- The keys published to the address directory, in order. -/
def publishedKeys : List Action → List String
  | [] => []
  | Action.publish _ key _ :: rest => key :: publishedKeys rest
  | _ :: rest => publishedKeys rest

/-- The integers sent on a given handle, in order. -/
def sentOn (c : MPI_Comm) : List Action → List Int
  | [] => []
  | Action.send c' v :: rest => if c' = c then v :: sentOn c rest else sentOn c rest
  | _ :: rest => sentOn c rest

/-- The handshake of a requester calling `requestConnection`, as the acceptor
sees it: the connection's handle and the two integers sent, rank then size. -/
def declaring (c : MPI_Comm) (requesterRank requesterCommunicatorSize : Int) : Incoming :=
  { communicator := c, sent := [requesterRank, requesterCommunicatorSize] }

/-- The actions of one iteration of the accept loop of `acceptConnection`. -/
def handshakeActions (port : String) (acceptorRank : Int) (c : MPI_Comm)
    (requesterRank declared : Int) : List Action :=
  [Action.accept port c, Action.recv c requesterRank, Action.recv c declared,
   Action.send c acceptorRank]

/-- Registration of a list of (handle, rank) pairs, in order. -/
def registerAll (m : StdMap) (peers : List (MPI_Comm × Int)) : StdMap :=
  peers.foldl (fun m p => m.assign p.2 p.1) m

/-- The log of consecutive iterations of the accept loop of `acceptConnection`
over peers that all declare the size `declared`. -/
def handshakeLog (port : String) (acceptorRank : Int) (declared : Int) :
    List (MPI_Comm × Int) → List Action
  | [] => []
  | p :: rest =>
    handshakeActions port acceptorRank p.1 p.2 declared ++
      handshakeLog port acceptorRank declared rest

/-- The locals of the accept loop at the top of an iteration other than the
first, with `n` the size fixed by the first connection. -/
def Started (n : Nat) (v : AcceptLocals) : Prop :=
  v.peerCurrent ≠ 0 ∧ v.peerCurrent < n ∧ v.peerCount = n ∧
    v.requesterCommunicatorSize = n ∧ n < 4294967296

/-- The log of consecutive iterations of the loop of `acceptConnectionAsServer`
over peers given as handle, rank sent first, and whatever is sent after it. -/
def serverLog (port : String) : List (MPI_Comm × Int × List Int) → List Action
  | [] => []
  | p :: rest => Action.accept port p.1 :: Action.recv p.1 p.2.1 :: serverLog port rest

/-- The log expected of `requestConnectionAsClient` over targets visited in the
given order: per target the address is read under the target's key, the
connection is made to that address, and the own rank is sent once on it. -/
def fanoutLog (env : Requester) (directory acceptorName requesterName : String)
    (requesterRank : Int) : List Int → List Action
  | [] => []
  | t :: rest =>
    Action.read directory (addressFileNameRanked acceptorName requesterName t)
        (env.read directory (addressFileNameRanked acceptorName requesterName t)) ::
      Action.connect (env.read directory (addressFileNameRanked acceptorName requesterName t))
        (env.connect (env.read directory (addressFileNameRanked acceptorName requesterName t))) ::
      Action.send
        (env.connect (env.read directory (addressFileNameRanked acceptorName requesterName t)))
        requesterRank ::
      fanoutLog env directory acceptorName requesterName requesterRank rest

/-- The addresses connected to, in order. -/
def connectedPorts : List Action → List String
  | [] => []
  | Action.connect p _ :: rest => p :: connectedPorts rest
  | _ :: rest => connectedPorts rest

/-- The integers sent, on whatever handle, in order. -/
def sentValues : List Action → List Int
  | [] => []
  | Action.send _ v :: rest => v :: sentValues rest
  | _ :: rest => sentValues rest

/-- The `std::set<int>` built by inserting the given values one after the other. -/
def StdSet.ofList (xs : List Int) : StdSet :=
  { elems := xs.foldl (fun s x => setInsert x s) []
    ascending := by
      have hins : ∀ (x : Int) (l : List Int), l.Pairwise (fun a b => a < b) →
          (∀ y, y ∈ setInsert x l ↔ y = x ∨ y ∈ l) ∧
            (setInsert x l).Pairwise (fun a b => a < b) := by
        intro x l
        induction l with
        | nil => intro _; simp [setInsert]
        | cons y rest ih =>
          intro hl
          have hl' := List.pairwise_cons.mp hl
          obtain ⟨hmem, hpw⟩ := ih hl'.2
          unfold setInsert
          by_cases h1 : x < y
          · simp only [h1, if_true]
            refine ⟨fun z => by simp, List.pairwise_cons.mpr ⟨?_, hl⟩⟩
            intro z hz
            rcases List.mem_cons.mp hz with hz | hz
            · omega
            · have := hl'.1 z hz
              omega
          · by_cases h2 : x = y
            · subst h2
              simp only [lt_self_iff_false, if_false, if_true]
              exact ⟨fun z => by simp, hl⟩
            · simp only [h1, h2, if_false]
              refine ⟨fun z => ?_, List.pairwise_cons.mpr ⟨?_, hpw⟩⟩
              · simp only [List.mem_cons, hmem]
                constructor
                · rintro (h | h | h)
                  · exact Or.inr (Or.inl h)
                  · exact Or.inl h
                  · exact Or.inr (Or.inr h)
                · rintro (h | h | h)
                  · exact Or.inr (Or.inl h)
                  · exact Or.inl h
                  · exact Or.inr (Or.inr h)
              · intro z hz
                rcases (hmem z).mp hz with hz | hz
                · omega
                · exact hl'.1 z hz
      have hfold : ∀ (ys : List Int) (l : List Int), l.Pairwise (fun a b => a < b) →
          (ys.foldl (fun s x => setInsert x s) l).Pairwise (fun a b => a < b) := by
        intro ys
        induction ys with
        | nil => intro l hl; exact hl
        | cons y rest ih => intro l hl; exact ih _ (hins y l hl).2
      exact hfold xs [] List.Pairwise.nil }

/-- A process of the requester group calling `requestConnectionAsClient`: its
rank, its target set, what its collaborators return to it, and the handle under
which an acceptor's `MPI_Comm_accept` returns a connection made by it. -/
structure FanoutPeer where
  rank : Int
  targets : StdSet
  env : Requester
  acceptedAs : MPI_Comm

/-- The call of `requestConnectionAsClient` this peer makes on a new object. -/
def FanoutPeer.call (q : FanoutPeer) (acceptorName requesterName directory : String) :
    Outcome :=
  requestConnectionAsClient q.env acceptorName requesterName q.targets q.rank
    (Run.fresh directory)

/-- The connection of this peer as the acceptor of rank `acceptorRank` gets it:
it carries the integers the peer sends on the handle it obtained by connecting
to the address read under that acceptor's key. -/
def FanoutPeer.incomingAt (q : FanoutPeer) (acceptorName requesterName directory : String)
    (acceptorRank : Int) : Incoming :=
  { communicator := q.acceptedAs
    sent := sentOn
      (q.env.connect (q.env.read (Run.fresh directory).self._addressDirectory
        (addressFileNameRanked acceptorName requesterName acceptorRank)))
      (q.call acceptorName requesterName directory).run.log }

/-- A sample environment of a connecting process: the address read is the path
of the key, every connection gets handle 1, every reply is 0. -/
def sampleRequester : Requester :=
  { read := fun directory key => directory ++ "/" ++ key
    connect := fun _ => MPI_Comm.comm 1
    reply := fun _ => 0 }

/-- The value of a decimal digit character. -/
def digitValue (c : Char) : Nat := c.toNat - 48

/-- The number written by decimal digit characters, most significant first,
continuing from the value `acc` of the digits already read. -/
def decimalValue (acc : Nat) (cs : List Char) : Nat :=
  cs.foldl (fun a c => 10 * a + digitValue c) acc

/-- Two requesters of ranks 5 and 9, each with the target set holding rank 0. -/
def sampleRequesters : List FanoutPeer :=
  [{ rank := 5, targets := StdSet.ofList [0], env := sampleRequester,
     acceptedAs := MPI_Comm.comm 1 },
   { rank := 9, targets := StdSet.ofList [0], env := sampleRequester,
     acceptedAs := MPI_Comm.comm 2 }]

/-! ## Facts about the containers -/

namespace StdMap

theorem keys_cons (e : Int × MPI_Comm) (m : StdMap) : keys (e :: m) = e.1 :: keys m := rfl

theorem mem_keys_assign (m : StdMap) (k : Int) (v : MPI_Comm) (x : Int) :
    x ∈ keys (assign m k v) ↔ x = k ∨ x ∈ keys m := by
  induction m with
  | nil => simp [assign, keys]
  | cons e rest ih =>
    obtain ⟨k', v'⟩ := e
    unfold assign
    by_cases h1 : k < k'
    · simp [h1, keys]
    · by_cases h2 : k = k'
      · subst h2
        simp [keys]
      · simp only [h1, h2, if_false, keys_cons, List.mem_cons, ih]
        constructor
        · rintro (h | h | h)
          · exact Or.inr (Or.inl h)
          · exact Or.inl h
          · exact Or.inr (Or.inr h)
        · rintro (h | h | h)
          · exact Or.inr (Or.inl h)
          · exact Or.inl h
          · exact Or.inr (Or.inr h)

theorem count_eq_zero_iff (m : StdMap) (k : Int) : count m k = 0 ↔ k ∉ keys m := by
  induction m with
  | nil => simp [count, keys]
  | cons e rest ih =>
    obtain ⟨k', v'⟩ := e
    unfold count
    by_cases h : k' = k
    · simp [h, keys]
    · have h' : ¬ k = k' := fun e => h e.symm
      simp [h, h', keys_cons, ih]

theorem at?_eq_none_iff (m : StdMap) (k : Int) : at? m k = none ↔ k ∉ keys m := by
  induction m with
  | nil => simp [at?, keys]
  | cons e rest ih =>
    obtain ⟨k', v'⟩ := e
    unfold at?
    by_cases h : k' = k
    · simp [h, keys]
    · have h' : ¬ k = k' := fun e => h e.symm
      simp [h, h', keys_cons, ih]

theorem at?_of_mem (m : StdMap) (hm : WF m) (k : Int) (v : MPI_Comm) (h : (k, v) ∈ m) :
    at? m k = some v := by
  induction m with
  | nil => simp at h
  | cons e rest ih =>
    obtain ⟨k', v'⟩ := e
    unfold at?
    have hm' : (∀ x ∈ keys rest, k' < x) ∧ WF rest := by
      simpa [WF, keys_cons, List.pairwise_cons] using hm
    rcases List.mem_cons.mp h with h | h
    · cases h
      simp
    · have hk : k ∈ keys rest := List.mem_map.mpr ⟨(k, v), h, rfl⟩
      have hlt := hm'.1 k hk
      have hne : ¬ k' = k := by omega
      simp only [hne, if_false]
      exact ih hm'.2 h

theorem size_assign_of_not_mem (m : StdMap) (k : Int) (v : MPI_Comm) (h : k ∉ keys m) :
    size (assign m k v) = size m + 1 := by
  induction m with
  | nil => simp [assign, size]
  | cons e rest ih =>
    obtain ⟨k', v'⟩ := e
    have hk : ¬ k = k' ∧ k ∉ keys rest := by
      simpa [keys_cons, List.mem_cons, not_or] using h
    unfold assign
    by_cases h1 : k < k'
    · simp [h1, size]
    · have := ih hk.2
      simp only [h1, hk.1, if_false]
      simp only [size, List.length_cons] at this ⊢
      omega

theorem WF_assign (m : StdMap) (k : Int) (v : MPI_Comm) (hm : WF m) : WF (assign m k v) := by
  induction m with
  | nil => simp [assign, WF, keys]
  | cons e rest ih =>
    obtain ⟨k', v'⟩ := e
    have hm' : (∀ x ∈ keys rest, k' < x) ∧ WF rest := by
      simpa [WF, keys_cons, List.pairwise_cons] using hm
    unfold assign
    by_cases h1 : k < k'
    · simp only [h1, if_true, WF, keys_cons, List.pairwise_cons, List.mem_cons]
      refine ⟨?_, ?_, hm'.2⟩
      · rintro x (hx | hx)
        · omega
        · have := hm'.1 x hx
          omega
      · exact hm'.1
    · by_cases h2 : k = k'
      · subst h2
        simp only [lt_self_iff_false, if_false, if_true, WF, keys_cons, List.pairwise_cons]
        exact ⟨hm'.1, hm'.2⟩
      · simp only [h1, h2, if_false, WF, keys_cons, List.pairwise_cons]
        refine ⟨?_, ih hm'.2⟩
        intro x hx
        rcases (mem_keys_assign rest k v x).mp hx with hx | hx
        · omega
        · exact hm'.1 x hx

theorem keys_map_null (m : StdMap) :
    keys (m.map (fun e => (e.1, MPI_Comm.null))) = keys m := by
  simp [keys, List.map_map, Function.comp_def]

theorem at?_map_null (m : StdMap) (k : Int) (h : k ∈ keys m) :
    at? (m.map (fun e => (e.1, MPI_Comm.null))) k = some MPI_Comm.null := by
  induction m with
  | nil => simp [keys] at h
  | cons e rest ih =>
    obtain ⟨k', v'⟩ := e
    simp only [List.map_cons]
    unfold at?
    by_cases hk : k' = k
    · simp [hk]
    · have : k ∈ keys rest := by
        rcases List.mem_cons.mp (by simpa [keys_cons] using h) with h' | h'
        · exact absurd h'.symm hk
        · exact h'
      simp only [hk, if_false]
      exact ih this

end StdMap


/-! ## The accept loop of `acceptConnection` -/

theorem recvIntIntoSizeT_low (old : Nat) (v : Int) (h : old < 4294967296) :
    recvIntIntoSizeT old v = (v % 4294967296).toNat := by
  unfold recvIntIntoSizeT
  have : old / 4294967296 = 0 := Nat.div_eq_of_lt h
  simp [this]

theorem recvIntIntoSizeT_lt (old : Nat) (v : Int) (h : old < 4294967296) :
    recvIntIntoSizeT old v < 4294967296 := by
  rw [recvIntIntoSizeT_low old v h]
  omega

/-- The loop body on a connection whose peer sends (at least) a rank and a size:
the three checks in order, then the registration. -/
theorem acceptBody_eq (acceptorRank : Int) (c : Incoming) (v : AcceptLocals) (r : Run)
    (requesterRank declared : Int) (more : List Int)
    (hc : c.sent = requesterRank :: declared :: more) :
    acceptBody acceptorRank c v r =
      (let size := recvIntIntoSizeT v.requesterCommunicatorSize declared
       let r1 := r.act (handshakeActions r.self._portName acceptorRank c.communicator
                  requesterRank declared)
       let peerCount := if v.peerCurrent = 0 then size else v.peerCount
       if size = 0 then
         Except.error (Outcome.checkFailed "Requester communicator size has to be > 0!" r1)
       else if size ≠ peerCount then
         Except.error (Outcome.checkFailed "Requester communicator sizes are inconsistent!" r1)
       else if requesterRank ∈ r.self._communicators.keys then
         Except.error (Outcome.checkFailed
           ("Duplicate request to connect by same rank (" ++ toString requesterRank ++ ")!") r1)
       else
         Except.ok ({ peerCurrent := v.peerCurrent, peerCount := peerCount,
                      requesterCommunicatorSize := size },
                    r1.register requesterRank c.communicator)) := by
  unfold acceptBody
  simp only [hc]
  by_cases h1 : recvIntIntoSizeT v.requesterCommunicatorSize declared = 0
  · simp [CHECK, h1, bind, Except.bind, throw, throwThe, MonadExceptOf.throw, Run.act,
      handshakeActions]
  · have h1' : recvIntIntoSizeT v.requesterCommunicatorSize declared > 0 := by omega
    by_cases h2 : recvIntIntoSizeT v.requesterCommunicatorSize declared =
        (if v.peerCurrent = 0 then recvIntIntoSizeT v.requesterCommunicatorSize declared
          else v.peerCount)
    · by_cases h3 : requesterRank ∈ r.self._communicators.keys
      · have h3' : ¬ StdMap.count r.self._communicators requesterRank = 0 := by
          rw [StdMap.count_eq_zero_iff]; exact fun h => h h3
        simp [CHECK, h1, h1', ← h2, h3, h3', bind, Except.bind, throw, throwThe,
          MonadExceptOf.throw, Run.act, pure, Except.pure, handshakeActions]
      · have h3' : StdMap.count r.self._communicators requesterRank = 0 := by
          rw [StdMap.count_eq_zero_iff]; exact h3
        simp [CHECK, h1, h1', ← h2, h3, h3', bind, Except.bind, throw, throwThe,
          MonadExceptOf.throw, Run.act, pure, Except.pure, handshakeActions, Run.register]
    · simp [CHECK, h1, h1', h2, bind, Except.bind, throw, throwThe,
          MonadExceptOf.throw, Run.act, pure, Except.pure, handshakeActions]

/-- The loop body never ends waiting in `MPI_Comm_accept`. -/
theorem acceptBody_not_blocked_accept (acceptorRank : Int) (c : Incoming) (v : AcceptLocals)
    (r rp : Run) : acceptBody acceptorRank c v r ≠ Except.error (Outcome.blocked BlockingCall.accept rp) := by
  rcases hs : c.sent with _ | ⟨a, _ | ⟨b, more⟩⟩
  · simp [acceptBody, hs, throw, throwThe, MonadExceptOf.throw]
  · simp [acceptBody, hs, throw, throwThe, MonadExceptOf.throw]
  · rw [acceptBody_eq acceptorRank c v r a b more hs]
    simp only
    split_ifs <;> simp


theorem acceptBody_ok_sent (acceptorRank : Int) (c : Incoming) (v v1 : AcceptLocals)
    (r r1 : Run) (h : acceptBody acceptorRank c v r = Except.ok (v1, r1)) :
    ∃ requesterRank declared more, c.sent = requesterRank :: declared :: more := by
  rcases hs : c.sent with _ | ⟨a, _ | ⟨b, more⟩⟩
  · simp [acceptBody, hs, throw, throwThe, MonadExceptOf.throw] at h
  · simp [acceptBody, hs, throw, throwThe, MonadExceptOf.throw] at h
  · exact ⟨a, b, more, rfl⟩

/-- One iteration that passes its checks and continues the loop. -/
theorem acceptBody_step (acceptorRank : Int) (n : Nat) (c : Incoming) (v v1 : AcceptLocals)
    (r r1 : Run) (requesterRank declared : Int) (more : List Int)
    (hsize : v.requesterCommunicatorSize < 4294967296)
    (hstate : v.peerCurrent = 0 ∨ Started n v)
    (hc : c.sent = requesterRank :: declared :: more)
    (hn : v.peerCurrent = 0 → n = (declared % 4294967296).toNat)
    (hb : acceptBody acceptorRank c v r = Except.ok (v1, r1))
    (hlt : sizeTSucc v1.peerCurrent < v1.requesterCommunicatorSize) :
    Started n { v1 with peerCurrent := sizeTSucc v1.peerCurrent } ∧
      r1 = (r.act (handshakeActions r.self._portName acceptorRank c.communicator
              requesterRank declared)).register requesterRank c.communicator ∧
      requesterRank ∉ r.self._communicators.keys ∧
      (declared % 4294967296).toNat = n := by
  rw [acceptBody_eq acceptorRank c v r requesterRank declared more hc] at hb
  simp only [recvIntIntoSizeT_low _ declared hsize] at hb
  by_cases hp : v.peerCurrent = 0
  · have hn' := hn hp
    simp only [hp, if_true] at hb
    split_ifs at hb with h1 h2 h3
    simp only [Except.ok.injEq, Prod.mk.injEq] at hb
    obtain ⟨hv, hr⟩ := hb
    subst hv
    simp only at hlt
    refine ⟨?_, hr.symm, h3, hn'.symm⟩
    simp only [Started]
    unfold sizeTSucc at hlt ⊢
    omega
  · have hs : Started n v := by
      rcases hstate with h0 | hs
      · exact absurd h0 hp
      · exact hs
    obtain ⟨ha, hb', hc', hd, he⟩ := hs
    simp only [hp, if_false] at hb
    split_ifs at hb with h1 h2 h3
    simp only [Except.ok.injEq, Prod.mk.injEq] at hb
    obtain ⟨hv, hr⟩ := hb
    subst hv
    simp only at hlt
    have h2' := not_not.mp h2
    refine ⟨?_, hr.symm, h3, by omega⟩
    simp only [Started]
    unfold sizeTSucc at hlt ⊢
    omega

theorem acceptBody_error (acceptorRank : Int) (c : Incoming) (v : AcceptLocals) (r : Run)
    (o : Outcome) (h : acceptBody acceptorRank c v r = Except.error o) :
    o.isReturned = false ∧ o.run.self = r.self := by
  rcases hs : c.sent with _ | ⟨a, _ | ⟨b, more⟩⟩
  · simp [acceptBody, hs, throw, throwThe, MonadExceptOf.throw] at h
    subst h
    simp [Outcome.isReturned, Outcome.run, Run.act]
  · simp [acceptBody, hs, throw, throwThe, MonadExceptOf.throw] at h
    subst h
    simp [Outcome.isReturned, Outcome.run, Run.act]
  · rw [acceptBody_eq acceptorRank c v r a b more hs] at h
    simp only at h
    split_ifs at h <;> simp only [Except.error.injEq] at h <;> subst h <;>
      simp [Outcome.isReturned, Outcome.run, Run.act]

theorem acceptBody_ok_self (acceptorRank : Int) (c : Incoming) (v v1 : AcceptLocals)
    (r r1 : Run) (h : acceptBody acceptorRank c v r = Except.ok (v1, r1)) :
    ∃ requesterRank, c.sent.head? = some requesterRank ∧
      r1.self = { r.self with
        _communicators := r.self._communicators.assign requesterRank c.communicator } := by
  obtain ⟨a, b, more, hs⟩ := acceptBody_ok_sent acceptorRank c v v1 r r1 h
  rw [acceptBody_eq acceptorRank c v r a b more hs] at h
  simp only at h
  refine ⟨a, by simp [hs], ?_⟩
  split_ifs at h <;>
  · simp only [Except.ok.injEq, Prod.mk.injEq] at h
    rw [← h.2]
    simp [Run.register, Run.act]

/-- What the accept loop leaves alone: role flag, port name and directory always,
and the connected flag unless the loop runs to its end. -/
theorem acceptLoop_frame (acceptorRank : Int) (incoming : List Incoming) :
    ∀ (v : AcceptLocals) (r : Run),
      (acceptLoop acceptorRank incoming v r).run.self._isAcceptor = r.self._isAcceptor ∧
      (acceptLoop acceptorRank incoming v r).run.self._portName = r.self._portName ∧
      (acceptLoop acceptorRank incoming v r).run.self._addressDirectory
        = r.self._addressDirectory ∧
      ((acceptLoop acceptorRank incoming v r).isReturned = true →
        (acceptLoop acceptorRank incoming v r).run.self._isConnected = true) ∧
      ((acceptLoop acceptorRank incoming v r).isReturned = false →
        (acceptLoop acceptorRank incoming v r).run.self._isConnected = r.self._isConnected) := by
  induction incoming with
  | nil =>
    intro v r
    simp [acceptLoop, Outcome.run, Outcome.isReturned]
  | cons c rest ih =>
    intro v r
    unfold acceptLoop
    rcases hb : acceptBody acceptorRank c v r with o | ⟨v1, r1⟩
    · obtain ⟨h1, h2⟩ := acceptBody_error acceptorRank c v r o hb
      simp [h1, h2]
    · obtain ⟨a, _, hself⟩ := acceptBody_ok_self acceptorRank c v v1 r r1 hb
      simp only
      split_ifs with hlt
      · have := ih { v1 with peerCurrent := sizeTSucc v1.peerCurrent } r1
        simpa [hself] using this
      · simp [Outcome.run, Outcome.isReturned, hself]

/-- The accept loop having taken every connection of `pre` and waiting for the
next one: the loop over a longer queue continues from there. -/
theorem acceptLoop_continues (acceptorRank : Int) (n : Nat) (pre : List Incoming) :
    ∀ (v : AcceptLocals) (r rp : Run), Started n v →
      acceptLoop acceptorRank pre v r = Outcome.blocked BlockingCall.accept rp →
      ∃ v', Started n v' ∧
        (∀ l, acceptLoop acceptorRank (pre ++ l) v r = acceptLoop acceptorRank l v' rp) ∧
        (∀ k ∈ r.self._communicators.keys, k ∈ rp.self._communicators.keys) ∧
        (∀ p ∈ pre, ∀ k, p.sent.head? = some k → k ∈ rp.self._communicators.keys) := by
  induction pre with
  | nil =>
    intro v r rp hv h
    simp only [acceptLoop, Outcome.blocked.injEq, true_and] at h
    subst h
    exact ⟨v, hv, fun l => by simp, fun k hk => hk, fun p hp => by simp at hp⟩
  | cons c rest ih =>
    intro v r rp hv h
    unfold acceptLoop at h
    rcases hb : acceptBody acceptorRank c v r with o | ⟨v1, r1⟩
    · rw [hb] at h
      simp only at h
      subst h
      exact absurd hb (acceptBody_not_blocked_accept acceptorRank c v r rp)
    · rw [hb] at h
      simp only at h
      split_ifs at h with hlt
      obtain ⟨a, b, more, hs⟩ := acceptBody_ok_sent acceptorRank c v v1 r r1 hb
      obtain ⟨hst, hr1, hnot, _⟩ := acceptBody_step acceptorRank n c v v1 r r1 a b more
        (by obtain ⟨_, h2, _, h4, h5⟩ := hv; omega) (Or.inr hv) hs
        (fun h0 => absurd h0 hv.1) hb hlt
      obtain ⟨v', hv', hcont, hkeys, hpre⟩ :=
        ih { v1 with peerCurrent := sizeTSucc v1.peerCurrent } r1 rp hst h
      have hk1 : ∀ k, k = a ∨ k ∈ r.self._communicators.keys →
          k ∈ r1.self._communicators.keys := by
        intro k hk
        rw [hr1]
        simp only [Run.register, Run.act]
        exact (StdMap.mem_keys_assign _ _ _ _).mpr hk
      refine ⟨v', hv', ?_, ?_, ?_⟩
      · intro l
        simp only [List.cons_append]
        rw [acceptLoop, hb]
        simp only [hlt, if_true]
        exact hcont l
      · intro k hk
        exact hkeys k (hk1 k (Or.inr hk))
      · intro p hp k hk
        rcases List.mem_cons.mp hp with hp | hp
        · subst hp
          rw [hs] at hk
          simp only [List.head?_cons, Option.some.injEq] at hk
          exact hkeys k (hk1 k (Or.inl hk.symm))
        · exact hpre p hp k hk

/-- A connection arriving after the first is rejected by a `CHECK` when its
size differs from the fixed one or its rank is already registered. -/
theorem acceptLoop_reject (acceptorRank : Int) (n : Nat) (c : Incoming) (rest : List Incoming)
    (v : AcceptLocals) (r : Run) (requesterRank declared : Int) (more : List Int)
    (hv : Started n v) (hc : c.sent = requesterRank :: declared :: more)
    (hbad : (declared % 4294967296).toNat ≠ n ∨ requesterRank ∈ r.self._communicators.keys) :
    ∃ message, acceptLoop acceptorRank (c :: rest) v r =
      Outcome.checkFailed message
        (r.act (handshakeActions r.self._portName acceptorRank c.communicator
          requesterRank declared)) := by
  obtain ⟨h1, h2, h3, h4, h5⟩ := hv
  unfold acceptLoop
  rw [acceptBody_eq acceptorRank c v r requesterRank declared more hc]
  simp only [recvIntIntoSizeT_low _ declared (by omega : v.requesterCommunicatorSize < 4294967296),
    h1, if_false, h3]
  split_ifs with g1 g2 g3
  · exact ⟨_, rfl⟩
  · exact ⟨_, rfl⟩
  · exact ⟨_, rfl⟩
  · exfalso
    rcases hbad with hb | hb
    · exact g2 hb
    · exact g3 hb

/-! ## Registration of several peers -/

theorem registerAll_cons (m : StdMap) (p : MPI_Comm × Int) (ps : List (MPI_Comm × Int)) :
    registerAll m (p :: ps) = registerAll (m.assign p.2 p.1) ps := rfl

theorem mem_keys_registerAll (ps : List (MPI_Comm × Int)) :
    ∀ (m : StdMap) (k : Int),
      k ∈ (registerAll m ps).keys ↔ k ∈ m.keys ∨ k ∈ ps.map Prod.snd := by
  induction ps with
  | nil => intro m k; simp [registerAll]
  | cons p rest ih =>
    intro m k
    rw [registerAll_cons, ih, StdMap.mem_keys_assign]
    simp only [List.map_cons, List.mem_cons]
    constructor
    · rintro ((h | h) | h)
      · exact Or.inr (Or.inl h)
      · exact Or.inl h
      · exact Or.inr (Or.inr h)
    · rintro (h | h | h)
      · exact Or.inl (Or.inr h)
      · exact Or.inl (Or.inl h)
      · exact Or.inr h

theorem WF_registerAll (ps : List (MPI_Comm × Int)) :
    ∀ (m : StdMap), m.WF → (registerAll m ps).WF := by
  induction ps with
  | nil => intro m hm; exact hm
  | cons p rest ih =>
    intro m hm
    rw [registerAll_cons]
    exact ih _ (StdMap.WF_assign m p.2 p.1 hm)

theorem size_registerAll (ps : List (MPI_Comm × Int)) :
    ∀ (m : StdMap), (ps.map Prod.snd).Nodup → (∀ k ∈ ps.map Prod.snd, k ∉ m.keys) →
      (registerAll m ps).size = m.size + ps.length := by
  induction ps with
  | nil => intro m _ _; simp [registerAll]
  | cons p rest ih =>
    intro m hnd hfresh
    have hnd' : p.2 ∉ rest.map Prod.snd ∧ (rest.map Prod.snd).Nodup := by
      simpa [List.nodup_cons] using hnd
    have hp : p.2 ∉ m.keys := hfresh p.2 (by simp)
    rw [registerAll_cons, ih _ hnd'.2, StdMap.size_assign_of_not_mem m p.2 p.1 hp]
    · simp only [List.length_cons]
      omega
    · intro k hk hmem
      rcases (StdMap.mem_keys_assign m p.2 p.1 k).mp hmem with h | h
      · subst h
        exact hnd'.1 hk
      · exact hfresh k (by simp only [List.map_cons, List.mem_cons]; exact Or.inr hk) h

/-- The accept loop served by peers with pairwise distinct, unregistered ranks
that all declare the size `n`, of which exactly the missing number is queued
first: it returns after taking these and no other connection. -/
theorem acceptLoop_good (acceptorRank : Int) (n : Nat) (hn : n < 2147483648)
    (extra : List Incoming) (ps : List (MPI_Comm × Int)) :
    ∀ (v : AcceptLocals) (r : Run), ps ≠ [] →
      (v.peerCurrent = 0 ∨ Started n v) → v.requesterCommunicatorSize < 4294967296 →
      v.peerCurrent + ps.length = n → (ps.map Prod.snd).Nodup →
      (∀ k ∈ ps.map Prod.snd, k ∉ r.self._communicators.keys) →
      acceptLoop acceptorRank (ps.map (fun p => declaring p.1 p.2 n) ++ extra) v r =
        Outcome.returned
          { self := { r.self with
                      _communicators := registerAll r.self._communicators ps
                      _isConnected := true },
            log := r.log ++ handshakeLog r.self._portName acceptorRank n ps } := by
  induction ps with
  | nil => intro v r h; exact absurd rfl h
  | cons p rest ih =>
    intro v r _ hstate hsize hlen hnd hfresh
    have hnd' : p.2 ∉ rest.map Prod.snd ∧ (rest.map Prod.snd).Nodup := by
      simpa [List.nodup_cons] using hnd
    have hp : p.2 ∉ r.self._communicators.keys := hfresh p.2 (by simp)
    have hrecv : ((n : Int) % 4294967296).toNat = n := by omega
    have hpc : (if v.peerCurrent = 0 then n else v.peerCount) = n := by
      rcases hstate with h0 | hs
      · simp [h0]
      · simp [hs.1, hs.2.2.1]
    have hn0 : n ≠ 0 := by
      simp only [List.length_cons] at hlen
      omega
    have hbody : acceptBody acceptorRank (declaring p.1 p.2 n) v r =
        Except.ok ({ peerCurrent := v.peerCurrent, peerCount := n,
                     requesterCommunicatorSize := n },
          (r.act (handshakeActions r.self._portName acceptorRank p.1 p.2 n)).register
            p.2 p.1) := by
      rw [acceptBody_eq acceptorRank (declaring p.1 p.2 n) v r p.2 n [] rfl]
      simp only [recvIntIntoSizeT_low _ (n : Int) hsize, hrecv, hpc, hn0, if_false, hp,
        ne_eq, not_true_eq_false, declaring]
    simp only [List.map_cons, List.cons_append]
    rw [acceptLoop, hbody]
    simp only
    have hsucc : sizeTSucc v.peerCurrent = v.peerCurrent + 1 := by
      unfold sizeTSucc
      simp only [List.length_cons] at hlen
      omega
    by_cases hrest : rest = []
    · subst hrest
      have : ¬ sizeTSucc v.peerCurrent < n := by
        simp only [List.length_cons, List.length_nil] at hlen
        omega
      simp only [this, if_false, List.map_nil, List.nil_append]
      simp [Run.register, Run.act, registerAll, handshakeLog]
    · have hlt : sizeTSucc v.peerCurrent < n := by
        have : 0 < rest.length := List.length_pos.mpr hrest
        simp only [List.length_cons] at hlen
        omega
      simp only [hlt, if_true]
      have hst : Started n { peerCurrent := sizeTSucc v.peerCurrent, peerCount := n,
                             requesterCommunicatorSize := n } := by
        refine ⟨?_, hlt, rfl, rfl, by omega⟩
        simp only
        omega
      rw [ih _ _ hrest (Or.inr hst) (by simp only; omega)
        (by simp only [List.length_cons] at hlen; simp only; omega) hnd'.2 ?_]
      · simp [Run.register, Run.act, registerAll_cons, handshakeLog]
      · intro k hk hmem
        simp only [Run.register, Run.act] at hmem
        rcases (StdMap.mem_keys_assign _ p.2 p.1 k).mp hmem with h | h
        · subst h
          exact hnd'.1 hk
        · exact hfresh k (by simp only [List.map_cons, List.mem_cons]; exact Or.inr hk) h

theorem acceptCount_append (l1 l2 : List Action) :
    acceptCount (l1 ++ l2) = acceptCount l1 + acceptCount l2 := by
  induction l1 with
  | nil => simp [acceptCount]
  | cons a rest ih =>
    cases a
    all_goals
      rw [List.cons_append]
      simp only [acceptCount]
      first
        | exact ih
        | (rw [ih]; omega)

theorem acceptCount_handshakeLog (port : String) (acceptorRank declared : Int)
    (ps : List (MPI_Comm × Int)) :
    acceptCount (handshakeLog port acceptorRank declared ps) = ps.length := by
  induction ps with
  | nil => rfl
  | cons p rest ih =>
    rw [handshakeLog, acceptCount_append, ih]
    simp [handshakeActions, acceptCount]
    omega

/-! ## acceptConnection: the established group -/

/-- The run of `acceptConnection` on a new object served by distinct peers that
all declare their number as the size. -/
theorem acceptConnection_good
    (acceptorName requesterName addressDirectory port : String) (acceptorRank : Int)
    (peers : List (MPI_Comm × Int)) (extra : List Incoming)
    (hN : 1 ≤ peers.length) (h32 : peers.length < 2147483648)
    (hdistinct : (peers.map Prod.snd).Nodup) :
    acceptConnection acceptorName requesterName acceptorRank port
        (peers.map (fun p => declaring p.1 p.2 peers.length) ++ extra)
        (Run.fresh addressDirectory) =
      Outcome.returned
        { self := { (MPIPortsCommunication.new addressDirectory) with
                    _portName := port
                    _isAcceptor := true
                    _isConnected := true
                    _communicators := registerAll [] peers },
          log := [Action.openPort port,
                  Action.publish (MPIPortsCommunication.new addressDirectory)._addressDirectory
                    (addressFileName acceptorName requesterName) port] ++
                 handshakeLog port acceptorRank peers.length peers } := by
  have hne : peers ≠ [] := by
    intro h
    rw [h] at hN
    simp at hN
  unfold acceptConnection
  simp only [Run.fresh, MPIPortsCommunication.new, MPIPortsCommunication.isConnected,
    assertion, Bool.not_false, if_true, pure, Except.pure]
  rw [acceptLoop_good acceptorRank peers.length h32 extra peers _ _ hne (Or.inl rfl)
    (by simp only; omega) (by simp only; omega) hdistinct
    (by intro k _; simp [Run.act, StdMap.keys])]
  simp [Run.act]

/-- C1. A successful `acceptConnection` on a new object, served by N >= 1
connections with pairwise distinct declared ranks that all declare the
peer-group size N (further connections may be queued behind them): the call
returns, the loop has taken exactly N connections, the map has exactly N entries
with unique keys, its key set is the set of declared ranks,
`getRemoteCommunicatorSize()` gives N and the object is connected. -/
theorem acceptConnection_registers_every_peer
    (acceptorName requesterName addressDirectory port : String) (acceptorRank : Int)
    (peers : List (MPI_Comm × Int)) (extra : List Incoming)
    (hN : 1 ≤ peers.length) (h32 : peers.length < 2147483648)
    (hdistinct : (peers.map Prod.snd).Nodup) :
    ∃ r', acceptConnection acceptorName requesterName acceptorRank port
            (peers.map (fun p => declaring p.1 p.2 peers.length) ++ extra)
            (Run.fresh addressDirectory) = Outcome.returned r' ∧
      acceptCount r'.log = peers.length ∧
      r'.self._communicators.size = peers.length ∧
      r'.self._communicators.WF ∧
      (∀ k, k ∈ r'.self._communicators.keys ↔ k ∈ peers.map Prod.snd) ∧
      getRemoteCommunicatorSize r'.self = some peers.length ∧
      r'.self.isConnected = true := by
  refine ⟨_, acceptConnection_good acceptorName requesterName addressDirectory port
    acceptorRank peers extra hN h32 hdistinct, ?_, ?_, ?_, ?_, ?_, ?_⟩
  · simp [acceptCount_append, acceptCount_handshakeLog, acceptCount]
  · simp only
    rw [size_registerAll peers [] hdistinct (by intro k _; simp [StdMap.keys])]
    simp [StdMap.size]
  · exact WF_registerAll peers [] (by simp [StdMap.WF, StdMap.keys])
  · intro k
    simp only
    rw [mem_keys_registerAll]
    simp [StdMap.keys]
  · simp only [getRemoteCommunicatorSize, MPIPortsCommunication.isConnected, if_true]
    rw [size_registerAll peers [] hdistinct (by intro k _; simp [StdMap.keys])]
    simp [StdMap.size]
  · simp [MPIPortsCommunication.isConnected]

/-- C1, at three peers of ranks 4, 7 and 9 with a fourth connection queued behind. -/
theorem acceptConnection_registers_every_peer_witness :
    (1 ≤ [(MPI_Comm.comm 1, (4 : Int)), (MPI_Comm.comm 2, 7), (MPI_Comm.comm 3, 9)].length ∧
     ([(MPI_Comm.comm 1, (4 : Int)), (MPI_Comm.comm 2, 7), (MPI_Comm.comm 3, 9)].map
        Prod.snd).Nodup) ∧
    ∃ r', acceptConnection "A" "R" 0 "port"
            ([(MPI_Comm.comm 1, (4 : Int)), (MPI_Comm.comm 2, 7), (MPI_Comm.comm 3, 9)].map
                (fun p => declaring p.1 p.2
                  [(MPI_Comm.comm 1, (4 : Int)), (MPI_Comm.comm 2, 7), (MPI_Comm.comm 3, 9)].length)
              ++ [declaring (MPI_Comm.comm 4) 11 3])
            (Run.fresh "") = Outcome.returned r' ∧
      acceptCount r'.log
        = [(MPI_Comm.comm 1, (4 : Int)), (MPI_Comm.comm 2, 7), (MPI_Comm.comm 3, 9)].length ∧
      r'.self._communicators.size
        = [(MPI_Comm.comm 1, (4 : Int)), (MPI_Comm.comm 2, 7), (MPI_Comm.comm 3, 9)].length ∧
      r'.self._communicators.WF ∧
      (∀ k, k ∈ r'.self._communicators.keys ↔
        k ∈ [(MPI_Comm.comm 1, (4 : Int)), (MPI_Comm.comm 2, 7), (MPI_Comm.comm 3, 9)].map
          Prod.snd) ∧
      getRemoteCommunicatorSize r'.self
        = some [(MPI_Comm.comm 1, (4 : Int)), (MPI_Comm.comm 2, 7), (MPI_Comm.comm 3, 9)].length ∧
      r'.self.isConnected = true :=
  ⟨⟨by decide, by decide⟩,
   acceptConnection_registers_every_peer "A" "R" "" "port" 0
     [(MPI_Comm.comm 1, (4 : Int)), (MPI_Comm.comm 2, 7), (MPI_Comm.comm 3, 9)]
     [declaring (MPI_Comm.comm 4) 11 3] (by decide) (by decide) (by decide)⟩

/-! ## acceptConnection: rejected connections -/

/-- C2. In `acceptConnection` on a new object, when the loop has taken the
connections `first :: accepted` and is waiting for the next one, and the next
connection declares a rank that one of them declared, or a size other than the
one `first` declared: the call ends in a failed `CHECK`, the map is the one
held before that connection (nothing registered, nothing overwritten) and the
object is not connected. -/
theorem acceptConnection_rejects_duplicate_or_inconsistent
    (acceptorName requesterName addressDirectory port : String) (acceptorRank : Int)
    (first : Incoming) (accepted : List Incoming) (c : Incoming) (rest : List Incoming)
    (rp : Run) (rank0 size0 requesterRank declared : Int) (more0 more : List Int)
    (hfirst : first.sent = rank0 :: size0 :: more0)
    (hc : c.sent = requesterRank :: declared :: more)
    (h0 : isInt32 size0) (h1 : isInt32 declared)
    (hreached : acceptConnection acceptorName requesterName acceptorRank port
        (first :: accepted) (Run.fresh addressDirectory)
      = Outcome.blocked BlockingCall.accept rp)
    (hbad : (∃ p ∈ first :: accepted, p.sent.head? = some requesterRank) ∨ declared ≠ size0) :
    ∃ message r', acceptConnection acceptorName requesterName acceptorRank port
          (first :: accepted ++ c :: rest) (Run.fresh addressDirectory)
        = Outcome.checkFailed message r' ∧
      r'.self._communicators = rp.self._communicators ∧
      r'.self.isConnected = false := by
  have hconn : rp.self._isConnected = false := by
    have hf := acceptLoop_frame acceptorRank (first :: accepted)
      { peerCurrent := 0, peerCount := 0, requesterCommunicatorSize := 0 }
      (({ self := { { (Run.fresh addressDirectory).self with _isAcceptor := true } with
                    _portName := port },
          log := (Run.fresh addressDirectory).log ++ [Action.openPort port] } : Run).act
        [Action.publish (Run.fresh addressDirectory).self._addressDirectory
          (addressFileName acceptorName requesterName) port])
    unfold acceptConnection at hreached
    simp only [Run.fresh, MPIPortsCommunication.new, MPIPortsCommunication.isConnected,
      assertion, Bool.not_false, if_true, pure, Except.pure] at hreached hf
    rw [hreached] at hf
    simpa [Outcome.run, Outcome.isReturned, Run.act] using hf.2.2.2.2
  unfold acceptConnection at hreached ⊢
  simp only [Run.fresh, MPIPortsCommunication.new, MPIPortsCommunication.isConnected,
    assertion, Bool.not_false, if_true, pure, Except.pure] at hreached ⊢
  rw [acceptLoop] at hreached
  simp only [List.cons_append]
  rw [acceptLoop]
  rcases hb : acceptBody acceptorRank first
      { peerCurrent := 0, peerCount := 0, requesterCommunicatorSize := 0 } _ with o | ⟨v1, r1⟩
  · rw [hb] at hreached
    simp only at hreached
    subst hreached
    exact absurd hb (acceptBody_not_blocked_accept acceptorRank first _ _ rp)
  · rw [hb] at hreached
    simp only at hreached ⊢
    split_ifs at hreached with hlt
    simp only [hlt, if_true]
    obtain ⟨hst, hr1, hnot, hsz⟩ := acceptBody_step acceptorRank (size0 % 4294967296).toNat
      first _ v1 _ r1 rank0 size0 more0 (by simp only; omega) (Or.inl rfl) hfirst
      (fun _ => rfl) hb hlt
    obtain ⟨v', hv', hcont, hkeys, hpre⟩ := acceptLoop_continues acceptorRank
      (size0 % 4294967296).toNat accepted _ r1 rp hst hreached
    rw [hcont (c :: rest)]
    have hbad' : (declared % 4294967296).toNat ≠ (size0 % 4294967296).toNat ∨
        requesterRank ∈ rp.self._communicators.keys := by
      rcases hbad with ⟨p, hp, hrank⟩ | hne
      · right
        rcases List.mem_cons.mp hp with hp | hp
        · subst hp
          rw [hfirst] at hrank
          simp only [List.head?_cons, Option.some.injEq] at hrank
          apply hkeys
          rw [hr1]
          simp only [Run.register, Run.act]
          exact (StdMap.mem_keys_assign _ _ _ _).mpr (Or.inl hrank.symm)
        · exact hpre p hp requesterRank hrank
      · left
        unfold isInt32 at h0 h1
        omega
    obtain ⟨message, hrej⟩ := acceptLoop_reject acceptorRank (size0 % 4294967296).toNat c rest
      v' rp requesterRank declared more hv' hc hbad'
    refine ⟨message, _, hrej, ?_, ?_⟩
    · simp [Run.act]
    · simpa [Run.act, MPIPortsCommunication.isConnected] using hconn

/-- C2, at a third connection repeating rank 4 of the first, all declaring size 3. -/
theorem acceptConnection_rejects_duplicate_or_inconsistent_witness :
    (∃ p ∈ declaring (MPI_Comm.comm 1) 4 3 :: [declaring (MPI_Comm.comm 2) 7 3],
        p.sent.head? = some 4) ∧
    ∃ message r', acceptConnection "A" "R" 0 "port"
          (declaring (MPI_Comm.comm 1) 4 3 :: [declaring (MPI_Comm.comm 2) 7 3] ++
            declaring (MPI_Comm.comm 3) 4 3 :: [])
          (Run.fresh "") = Outcome.checkFailed message r' ∧
      r'.self._communicators =
        (acceptConnection "A" "R" 0 "port"
          (declaring (MPI_Comm.comm 1) 4 3 :: [declaring (MPI_Comm.comm 2) 7 3])
          (Run.fresh "")).run.self._communicators ∧
      r'.self.isConnected = false :=
  ⟨by decide,
   acceptConnection_rejects_duplicate_or_inconsistent "A" "R" "" "port" 0
     (declaring (MPI_Comm.comm 1) 4 3) [declaring (MPI_Comm.comm 2) 7 3]
     (declaring (MPI_Comm.comm 3) 4 3) []
     (acceptConnection "A" "R" 0 "port"
        (declaring (MPI_Comm.comm 1) 4 3 :: [declaring (MPI_Comm.comm 2) 7 3])
        (Run.fresh "")).run
     4 3 4 3 [] [] rfl rfl (by decide) (by decide) (by rfl) (Or.inl (by decide))⟩

/-! ## acceptConnectionAsServer and the size checks -/

/-- Evaluation for C4: two connections that both declare rank 5 are both taken by
`acceptConnectionAsServer` with size 2; the call returns connected, no check
fails, and the map holds one entry, the second handle having replaced the
first. -/
theorem acceptConnectionAsServer_overwrites_duplicate_rank :
    acceptConnectionAsServer "A" "R" 0 2 "port"
        [{ communicator := MPI_Comm.comm 1, sent := [5] },
         { communicator := MPI_Comm.comm 2, sent := [5] }] (Run.fresh "") =
      Outcome.returned
        { self := { _addressDirectory := ".", _portName := "port", _isAcceptor := true,
                    _isConnected := true, _communicators := [(5, MPI_Comm.comm 2)] },
          log := [Action.openPort "port", Action.publish "." ".R-A-0.address" "port",
                  Action.accept "port" (MPI_Comm.comm 1), Action.recv (MPI_Comm.comm 1) 5,
                  Action.accept "port" (MPI_Comm.comm 2), Action.recv (MPI_Comm.comm 2) 5] } := by
  rfl

/-- Evaluation for C5: a first connection declaring size -1 passes the three
checks of `acceptConnection`: the size is held as 4294967295, the rank is
registered, and the loop goes on to wait for a further connection. -/
theorem acceptConnection_takes_negative_size :
    recvIntIntoSizeT 0 (-1) = 4294967295 ∧
    acceptConnection "A" "R" 0 "port" [declaring (MPI_Comm.comm 1) 4 (-1)] (Run.fresh "") =
      Outcome.blocked BlockingCall.accept
        { self := { _addressDirectory := ".", _portName := "port", _isAcceptor := true,
                    _isConnected := false, _communicators := [(4, MPI_Comm.comm 1)] },
          log := [Action.openPort "port", Action.publish "." ".R-A.address" "port",
                  Action.accept "port" (MPI_Comm.comm 1), Action.recv (MPI_Comm.comm 1) 4,
                  Action.recv (MPI_Comm.comm 1) (-1), Action.send (MPI_Comm.comm 1) 0] } := by
  constructor
  · decide
  · rfl

/-- The part of C5 the code keeps: `acceptConnectionAsServer` called with a size
<= 0 fails its `CHECK` before anything is done. -/
theorem acceptConnectionAsServer_rejects_nonpositive
    (acceptorName requesterName port : String) (acceptorRank size : Int)
    (incoming : List Incoming) (r : Run) (h : size ≤ 0) :
    acceptConnectionAsServer acceptorName requesterName acceptorRank size port incoming r =
      Outcome.checkFailed "Requester communicator size has to be > 0!" r := by
  have : ¬ size > 0 := by omega
  simp [acceptConnectionAsServer, CHECK, this, throw, throwThe, MonadExceptOf.throw]

/-- The part of C5 the code keeps: a first connection declaring size 0 fails the
`CHECK` of `acceptConnection`. -/
theorem acceptConnection_rejects_zero_size
    (acceptorName requesterName directory port : String) (acceptorRank requesterRank : Int)
    (c : MPI_Comm) (rest : List Incoming) :
    (acceptConnection acceptorName requesterName acceptorRank port
      (declaring c requesterRank 0 :: rest) (Run.fresh directory)).isCheckFailed = true := by
  unfold acceptConnection
  simp only [Run.fresh, MPIPortsCommunication.new, MPIPortsCommunication.isConnected,
    assertion, Bool.not_false, if_true, pure, Except.pure]
  rw [acceptLoop, acceptBody_eq acceptorRank _ _ _ requesterRank 0 [] rfl]
  simp [recvIntIntoSizeT, Outcome.isCheckFailed]

/-! ## communicator -/

/-- C7. `communicator(rank)` for a rank that is not a key fails (out of range)
and leaves the object, its map included, as it was; for a rank that is a key of
a well-formed map it gives the handle stored under it, again without changing
the object. -/
theorem communicator_bounds_checked (s : MPIPortsCommunication) (rank : Int) :
    (rank ∉ s._communicators.keys → communicator s rank = (none, s)) ∧
    (∀ c, s._communicators.WF → (rank, c) ∈ s._communicators →
      communicator s rank = (some c, s)) := by
  constructor
  · intro h
    simp [communicator, (StdMap.at?_eq_none_iff s._communicators rank).mpr h]
  · intro c hwf hmem
    simp [communicator, StdMap.at?_of_mem s._communicators hwf rank c hmem]

/-- C7, on a map with keys 4 and 7: rank 9 is refused, rank 7 gives its handle. -/
theorem communicator_bounds_checked_witness :
    (9 ∉ StdMap.keys [(4, MPI_Comm.comm 1), (7, MPI_Comm.comm 2)] ∧
      communicator
          { _addressDirectory := ".", _portName := "port", _isAcceptor := true,
            _isConnected := true,
            _communicators := [(4, MPI_Comm.comm 1), (7, MPI_Comm.comm 2)] } 9 =
        (none,
          { _addressDirectory := ".", _portName := "port", _isAcceptor := true,
            _isConnected := true,
            _communicators := [(4, MPI_Comm.comm 1), (7, MPI_Comm.comm 2)] })) ∧
    (StdMap.WF [(4, MPI_Comm.comm 1), (7, MPI_Comm.comm 2)] ∧
      communicator
          { _addressDirectory := ".", _portName := "port", _isAcceptor := true,
            _isConnected := true,
            _communicators := [(4, MPI_Comm.comm 1), (7, MPI_Comm.comm 2)] } 7 =
        (some (MPI_Comm.comm 2),
          { _addressDirectory := ".", _portName := "port", _isAcceptor := true,
            _isConnected := true,
            _communicators := [(4, MPI_Comm.comm 1), (7, MPI_Comm.comm 2)] })) :=
  ⟨⟨by decide,
    (communicator_bounds_checked
      { _addressDirectory := ".", _portName := "port", _isAcceptor := true,
        _isConnected := true,
        _communicators := [(4, MPI_Comm.comm 1), (7, MPI_Comm.comm 2)] } 9).1 (by decide)⟩,
   ⟨by unfold StdMap.WF; decide,
    (communicator_bounds_checked
      { _addressDirectory := ".", _portName := "port", _isAcceptor := true,
        _isConnected := true,
        _communicators := [(4, MPI_Comm.comm 1), (7, MPI_Comm.comm 2)] } 7).2
      (MPI_Comm.comm 2) (by unfold StdMap.WF; decide) (by decide)⟩⟩

/-! ## closeConnection -/

/-- C3 as stated fails: after `acceptConnection` has connected one peer of rank
4, `closeConnection` leaves the object disconnected but the map still holds the
entry for rank 4, and `communicator(4)` succeeds. -/
theorem closeConnection_keeps_map_entry :
    (acceptConnection "A" "R" 0 "port" [declaring (MPI_Comm.comm 1) 4 1]
        (Run.fresh "")).isReturned = true ∧
    (acceptConnection "A" "R" 0 "port" [declaring (MPI_Comm.comm 1) 4 1]
        (Run.fresh "")).run.self.isConnected = true ∧
    (acceptConnection "A" "R" 0 "port" [declaring (MPI_Comm.comm 1) 4 1]
        (Run.fresh "")).run.self._communicators = [(4, MPI_Comm.comm 1)] ∧
    (closeConnection (acceptConnection "A" "R" 0 "port" [declaring (MPI_Comm.comm 1) 4 1]
        (Run.fresh "")).run).self.isConnected = false ∧
    (closeConnection (acceptConnection "A" "R" 0 "port" [declaring (MPI_Comm.comm 1) 4 1]
        (Run.fresh "")).run).self._communicators ≠ [] ∧
    (communicator (closeConnection (acceptConnection "A" "R" 0 "port"
        [declaring (MPI_Comm.comm 1) 4 1] (Run.fresh "")).run).self 4).1
      = some MPI_Comm.null := by
  decide

/-- C3 amended. `closeConnection` on a connected object leaves it disconnected,
calls disconnect once on every mapped handle in key order (then closes the port
when the object is the acceptor), and keeps the map's keys: each key is then
mapped to the null handle, so `communicator(k)` still succeeds for every key k
registered before. -/
theorem closeConnection_disconnects_and_keeps_keys (r : Run)
    (h : r.self.isConnected = true) :
    (closeConnection r).self.isConnected = false ∧
    (closeConnection r).self._communicators.keys = r.self._communicators.keys ∧
    (∀ k ∈ r.self._communicators.keys,
      (communicator (closeConnection r).self k).1 = some MPI_Comm.null) ∧
    (closeConnection r).log =
      r.log ++ r.self._communicators.map (fun e => Action.disconnect e.2) ++
        (if r.self._isAcceptor then [Action.closePort r.self._portName] else []) := by
  have hkeys := StdMap.keys_map_null r.self._communicators
  have hat := StdMap.at?_map_null r.self._communicators
  unfold closeConnection communicator
  simp only [h, Bool.not_true, Bool.false_eq_true, if_false]
  by_cases ha : r.self._isAcceptor = true
  · simp only [ha, if_true, Run.act, MPIPortsCommunication.isConnected]
    exact ⟨trivial, hkeys, hat, trivial⟩
  · simp only [ha, Bool.false_eq_true, if_false, MPIPortsCommunication.isConnected,
      List.append_nil]
    exact ⟨trivial, hkeys, hat, trivial⟩

/-- C3 amended, on a connected acceptor holding ranks 4 and 7. -/
theorem closeConnection_disconnects_and_keeps_keys_witness :
    (closeConnection
        { self := { _addressDirectory := ".", _portName := "port", _isAcceptor := true,
                    _isConnected := true,
                    _communicators := [(4, MPI_Comm.comm 1), (7, MPI_Comm.comm 2)] },
          log := [] }).self.isConnected = false ∧
    (closeConnection
        { self := { _addressDirectory := ".", _portName := "port", _isAcceptor := true,
                    _isConnected := true,
                    _communicators := [(4, MPI_Comm.comm 1), (7, MPI_Comm.comm 2)] },
          log := [] }).self._communicators.keys = [4, 7] ∧
    (closeConnection
        { self := { _addressDirectory := ".", _portName := "port", _isAcceptor := true,
                    _isConnected := true,
                    _communicators := [(4, MPI_Comm.comm 1), (7, MPI_Comm.comm 2)] },
          log := [] }).log =
      [Action.disconnect (MPI_Comm.comm 1), Action.disconnect (MPI_Comm.comm 2),
       Action.closePort "port"] :=
  ⟨(closeConnection_disconnects_and_keeps_keys
      { self := { _addressDirectory := ".", _portName := "port", _isAcceptor := true,
                  _isConnected := true,
                  _communicators := [(4, MPI_Comm.comm 1), (7, MPI_Comm.comm 2)] },
        log := [] } rfl).1,
   (closeConnection_disconnects_and_keeps_keys
      { self := { _addressDirectory := ".", _portName := "port", _isAcceptor := true,
                  _isConnected := true,
                  _communicators := [(4, MPI_Comm.comm 1), (7, MPI_Comm.comm 2)] },
        log := [] } rfl).2.1,
   (closeConnection_disconnects_and_keeps_keys
      { self := { _addressDirectory := ".", _portName := "port", _isAcceptor := true,
                  _isConnected := true,
                  _communicators := [(4, MPI_Comm.comm 1), (7, MPI_Comm.comm 2)] },
        log := [] } rfl).2.2.2⟩

/-- C9. `closeConnection` on an object that is not connected changes nothing:
same object, same log (no disconnect, no port closed), no error; and closing
twice gives the same object and the same log as closing once. -/
theorem closeConnection_idempotent (r : Run) :
    (r.self.isConnected = false → closeConnection r = r) ∧
    closeConnection (closeConnection r) = closeConnection r := by
  have hno : ∀ q : Run, q.self.isConnected = false → closeConnection q = q := by
    intro q hq
    simp [closeConnection, hq]
  refine ⟨hno r, ?_⟩
  by_cases h : r.self.isConnected = true
  · apply hno
    unfold closeConnection
    simp only [h, Bool.not_true, Bool.false_eq_true, if_false]
    split_ifs <;> simp [MPIPortsCommunication.isConnected, Run.act]
  · have h' : r.self.isConnected = false := by simpa using h
    rw [hno r h', hno r h']

/-- C9, on a new object and on a connected acceptor. -/
theorem closeConnection_idempotent_witness :
    closeConnection (Run.fresh "") = Run.fresh "" ∧
    closeConnection (closeConnection
        { self := { _addressDirectory := ".", _portName := "port", _isAcceptor := true,
                    _isConnected := true,
                    _communicators := [(4, MPI_Comm.comm 1)] },
          log := [] }) =
      closeConnection
        { self := { _addressDirectory := ".", _portName := "port", _isAcceptor := true,
                    _isConnected := true,
                    _communicators := [(4, MPI_Comm.comm 1)] },
          log := [] } :=
  ⟨(closeConnection_idempotent (Run.fresh "")).1 rfl,
   (closeConnection_idempotent
      { self := { _addressDirectory := ".", _portName := "port", _isAcceptor := true,
                  _isConnected := true,
                  _communicators := [(4, MPI_Comm.comm 1)] },
        log := [] }).2⟩

/-! ## Logs only grow; the loops of the other protocols -/

theorem acceptBody_error_log (acceptorRank : Int) (c : Incoming) (v : AcceptLocals) (r : Run)
    (o : Outcome) (h : acceptBody acceptorRank c v r = Except.error o) :
    ∀ a ∈ r.log, a ∈ o.run.log := by
  intro x hx
  rcases hs : c.sent with _ | ⟨a, _ | ⟨b, more⟩⟩
  · simp [acceptBody, hs, throw, throwThe, MonadExceptOf.throw] at h
    subst h
    simp [Outcome.run, Run.act, hx]
  · simp [acceptBody, hs, throw, throwThe, MonadExceptOf.throw] at h
    subst h
    simp [Outcome.run, Run.act, hx]
  · rw [acceptBody_eq acceptorRank c v r a b more hs] at h
    simp only at h
    split_ifs at h <;> simp only [Except.error.injEq] at h <;> subst h <;>
      simp [Outcome.run, Run.act, hx]

theorem acceptBody_ok_log (acceptorRank : Int) (c : Incoming) (v v1 : AcceptLocals)
    (r r1 : Run) (h : acceptBody acceptorRank c v r = Except.ok (v1, r1)) :
    ∀ a ∈ r.log, a ∈ r1.log := by
  intro x hx
  obtain ⟨a, b, more, hs⟩ := acceptBody_ok_sent acceptorRank c v v1 r r1 h
  rw [acceptBody_eq acceptorRank c v r a b more hs] at h
  simp only at h
  split_ifs at h <;>
  · simp only [Except.ok.injEq, Prod.mk.injEq] at h
    rw [← h.2]
    simp [Run.register, Run.act, hx]

theorem acceptLoop_log (acceptorRank : Int) (incoming : List Incoming) :
    ∀ (v : AcceptLocals) (r : Run), ∀ a ∈ r.log,
      a ∈ (acceptLoop acceptorRank incoming v r).run.log := by
  induction incoming with
  | nil =>
    intro v r a ha
    simpa [acceptLoop, Outcome.run] using ha
  | cons c rest ih =>
    intro v r a ha
    unfold acceptLoop
    rcases hb : acceptBody acceptorRank c v r with o | ⟨v1, r1⟩
    · exact acceptBody_error_log acceptorRank c v r o hb a ha
    · have ha1 := acceptBody_ok_log acceptorRank c v v1 r r1 hb a ha
      simp only
      split_ifs with hlt
      · exact ih _ r1 a ha1
      · simpa [Outcome.run] using ha1

/-- What the loop of `acceptConnectionAsServer` leaves alone, and that its log
extends the one it starts from. -/
theorem serverLoop_frame (n : Nat) :
    ∀ (incoming : List Incoming) (r : Run),
      (serverLoop n incoming r).run.self._isAcceptor = r.self._isAcceptor ∧
      (serverLoop n incoming r).run.self._portName = r.self._portName ∧
      ((serverLoop n incoming r).isReturned = true →
        (serverLoop n incoming r).run.self._isConnected = true) ∧
      ((serverLoop n incoming r).isReturned = false →
        (serverLoop n incoming r).run.self._isConnected = r.self._isConnected) ∧
      (∀ a ∈ r.log, a ∈ (serverLoop n incoming r).run.log) := by
  induction n with
  | zero =>
    intro incoming r
    simp [serverLoop, Outcome.run, Outcome.isReturned]
  | succ m ih =>
    intro incoming r
    rcases incoming with _ | ⟨c, rest⟩
    · simp [serverLoop, Outcome.run, Outcome.isReturned]
    · rcases hs : c.sent with _ | ⟨a, more⟩
      · simp only [serverLoop, hs, Outcome.run, Outcome.isReturned, Run.act]
        refine ⟨trivial, trivial, by simp, by simp, ?_⟩
        intro x hx
        exact List.mem_append_left _ hx
      · simp only [serverLoop, hs]
        obtain ⟨h1, h2, h3, h4, h5⟩ := ih rest
          ((r.act [Action.accept r.self._portName c.communicator,
                   Action.recv c.communicator a]).register a c.communicator)
        simp only [Run.act, Run.register, List.append_assoc, List.singleton_append] at h1 h2 h3 h4 h5 ⊢
        refine ⟨h1, h2, h3, h4, ?_⟩
        intro x hx
        exact h5 x (by simp [hx])

/-- The loop of `acceptConnectionAsServer` served by as many connections as it
has iterations, each sending its rank first. -/
theorem serverLoop_good (extra : List Incoming) (ps : List (MPI_Comm × Int × List Int)) :
    ∀ (r : Run),
      serverLoop ps.length
          (ps.map (fun p => { communicator := p.1, sent := p.2.1 :: p.2.2 }) ++ extra) r =
        Outcome.returned
          { self := { r.self with
                      _communicators :=
                        registerAll r.self._communicators (ps.map (fun p => (p.1, p.2.1)))
                      _isConnected := true },
            log := r.log ++ serverLog r.self._portName ps } := by
  induction ps with
  | nil =>
    intro r
    simp [serverLoop, registerAll, serverLog]
  | cons p rest ih =>
    intro r
    simp only [List.length_cons, List.map_cons, List.cons_append]
    rw [serverLoop]
    simp only []
    rw [ih]
    simp [Run.act, Run.register, registerAll_cons, serverLog]

/-- The object and log after the range-for loop of `requestConnectionAsClient`. -/
theorem clientBody_foldl (env : Requester) (acceptorName requesterName : String)
    (requesterRank : Int) (ts : List Int) :
    ∀ (r : Run),
      (ts.foldl (clientBody env acceptorName requesterName requesterRank) r).self._addressDirectory
        = r.self._addressDirectory ∧
      (ts.foldl (clientBody env acceptorName requesterName requesterRank) r).self._isAcceptor
        = r.self._isAcceptor ∧
      (ts.foldl (clientBody env acceptorName requesterName requesterRank) r).self._isConnected
        = r.self._isConnected ∧
      (ts.foldl (clientBody env acceptorName requesterName requesterRank) r).self._communicators
        = registerAll r.self._communicators
            (ts.map (fun t =>
              (env.connect (env.read r.self._addressDirectory
                (addressFileNameRanked acceptorName requesterName t)), t))) ∧
      (ts.foldl (clientBody env acceptorName requesterName requesterRank) r).log
        = r.log ++ fanoutLog env r.self._addressDirectory acceptorName requesterName
            requesterRank ts := by
  induction ts with
  | nil =>
    intro r
    simp [registerAll, fanoutLog]
  | cons t rest ih =>
    intro r
    simp only [List.foldl_cons]
    obtain ⟨h1, h2, h3, h4, h5⟩ :=
      ih (clientBody env acceptorName requesterName requesterRank r t)
    rw [h1, h2, h3, h4, h5]
    simp [clientBody, Run.act, Run.register, registerAll_cons, fanoutLog]

theorem StdMap.keys_assign_last (m : StdMap) (k : Int) (v : MPI_Comm)
    (h : ∀ x ∈ m.keys, x < k) : (m.assign k v).keys = m.keys ++ [k] := by
  induction m with
  | nil => simp [StdMap.assign, StdMap.keys]
  | cons e rest ih =>
    obtain ⟨k', v'⟩ := e
    have hk' : k' < k := h k' (by simp [StdMap.keys])
    have hrest : ∀ x ∈ StdMap.keys rest, x < k := by
      intro x hx
      exact h x (by simp only [StdMap.keys_cons, List.mem_cons]; exact Or.inr hx)
    unfold StdMap.assign
    have h1 : ¬ k < k' := by omega
    have h2 : ¬ k = k' := by omega
    simp only [h1, h2, if_false, StdMap.keys_cons, ih hrest, List.cons_append]

/-- Registering strictly ascending keys that exceed every key present appends
them to the key list in that order. -/
theorem keys_registerAll_ascending (ps : List (MPI_Comm × Int)) :
    ∀ (m : StdMap), (ps.map Prod.snd).Pairwise (fun a b => a < b) →
      (∀ x ∈ m.keys, ∀ k ∈ ps.map Prod.snd, x < k) →
      (registerAll m ps).keys = m.keys ++ ps.map Prod.snd := by
  induction ps with
  | nil => intro m _ _; simp [registerAll]
  | cons p rest ih =>
    intro m hasc hlt
    have hasc' : (∀ k ∈ rest.map Prod.snd, p.2 < k) ∧
        (rest.map Prod.snd).Pairwise (fun a b => a < b) := by
      rw [List.map_cons] at hasc
      exact List.pairwise_cons.mp hasc
    rw [registerAll_cons, ih _ hasc'.2]
    · rw [StdMap.keys_assign_last m p.2 p.1 (fun x hx => hlt x hx p.2 (by simp))]
      simp
    · intro x hx k hk
      rcases (StdMap.mem_keys_assign m p.2 p.1 x).mp hx with h | h
      · subst h
        exact hasc'.1 k hk
      · exact hlt x h k (by simp only [List.map_cons, List.mem_cons]; exact Or.inr hk)

/-! ## The decimal text of a rank determines the rank -/

theorem digitValue_digitChar (k : Nat) (h : k < 10) : digitValue (Nat.digitChar k) = k := by
  interval_cases k <;> rfl

theorem digitChar_ne_minus (k : Nat) (h : k < 10) : Nat.digitChar k ≠ '-' := by
  interval_cases k <;> decide

theorem decimalValue_toDigitsCore (f : Nat) :
    ∀ (n : Nat) (ds : List Char), n < f →
      decimalValue 0 (Nat.toDigitsCore 10 f n ds) = decimalValue n ds := by
  induction f with
  | zero => intro n ds h; omega
  | succ f ih =>
    intro n ds h
    unfold Nat.toDigitsCore
    simp only
    have hd := digitValue_digitChar (n % 10) (Nat.mod_lt n (by omega))
    by_cases h0 : n / 10 = 0
    · simp only [h0, if_true, decimalValue, List.foldl_cons, hd]
      have : n = n % 10 := by omega
      rw [Nat.mul_zero, Nat.zero_add, ← this]
    · simp only [h0, if_false]
      rw [ih (n / 10) _ (by omega)]
      simp only [decimalValue, List.foldl_cons, hd]
      have : 10 * (n / 10) + n % 10 = n := by omega
      rw [this]

theorem toDigitsCore_ne_minus (f : Nat) :
    ∀ (n : Nat) (ds : List Char), (∀ c ∈ ds, c ≠ '-') →
      ∀ c ∈ Nat.toDigitsCore 10 f n ds, c ≠ '-' := by
  induction f with
  | zero => intro n ds h c hc; exact h c (by simpa [Nat.toDigitsCore] using hc)
  | succ f ih =>
    intro n ds h
    unfold Nat.toDigitsCore
    simp only
    have hds : ∀ c ∈ Nat.digitChar (n % 10) :: ds, c ≠ '-' := by
      intro c hc
      rcases List.mem_cons.mp hc with hc | hc
      · rw [hc]; exact digitChar_ne_minus _ (Nat.mod_lt n (by omega))
      · exact h c hc
    by_cases h0 : n / 10 = 0
    · simp only [h0, if_true]; exact hds
    · simp only [h0, if_false]; exact ih _ _ hds

theorem natRepr_injective (a b : Nat) (h : Nat.repr a = Nat.repr b) : a = b := by
  have hdata : Nat.toDigits 10 a = Nat.toDigits 10 b := congrArg String.data h
  have ha := decimalValue_toDigitsCore (a + 1) a [] (by omega)
  have hb := decimalValue_toDigitsCore (b + 1) b [] (by omega)
  unfold Nat.toDigits at hdata
  rw [hdata] at ha
  rw [ha] at hb
  simpa [decimalValue] using hb

theorem natRepr_ne_minus (a b : Nat) : Nat.repr a ≠ "-" ++ Nat.repr b := by
  intro h
  have hdata : Nat.toDigits 10 a = '-' :: Nat.toDigits 10 b := congrArg String.data h
  have hmem : '-' ∈ Nat.toDigits 10 a := by rw [hdata]; simp
  exact toDigitsCore_ne_minus (a + 1) a [] (by simp) '-' hmem rfl

/-- The decimal text of an `int` (as `std::to_string` writes it) determines it. -/
theorem intToString_injective (a b : Int) (h : toString a = toString b) : a = b := by
  cases a with
  | ofNat m =>
    cases b with
    | ofNat k =>
      have : Nat.repr m = Nat.repr k := h
      rw [natRepr_injective m k this]
    | negSucc k =>
      exact absurd h (natRepr_ne_minus m (k + 1))
  | negSucc m =>
    cases b with
    | ofNat k =>
      exact absurd h.symm (natRepr_ne_minus k (m + 1))
    | negSucc k =>
      have h1 : ("-" ++ Nat.repr (m + 1)).data = ("-" ++ Nat.repr (k + 1)).data :=
        congrArg String.data h
      simp only [String.data_append, List.append_cancel_left_eq] at h1
      have h2 : Nat.repr (m + 1) = Nat.repr (k + 1) := String.ext h1
      have := natRepr_injective _ _ h2
      have hmk : m = k := by omega
      rw [hmk]

/-- The ranked address key is the literal of the source, and acceptors of
different ranks (same group names) have different keys. -/
theorem addressFileNameRanked_injective (acceptorName requesterName : String) :
    Function.Injective (addressFileNameRanked acceptorName requesterName) := by
  intro t u h
  have h1 := congrArg String.data h
  simp only [addressFileNameRanked, String.data_append, List.append_cancel_right_eq,
    List.append_cancel_left_eq, List.append_assoc] at h1
  exact intToString_injective t u (String.ext h1)

/-! ## requestConnectionAsClient -/

theorem readKeys_fanoutLog (env : Requester) (directory acceptorName requesterName : String)
    (requesterRank : Int) (ts : List Int) :
    readKeys (fanoutLog env directory acceptorName requesterName requesterRank ts) =
      ts.map (addressFileNameRanked acceptorName requesterName) := by
  induction ts with
  | nil => rfl
  | cons t rest ih => simp [fanoutLog, readKeys, ih]

theorem connectedPorts_fanoutLog (env : Requester)
    (directory acceptorName requesterName : String) (requesterRank : Int) (ts : List Int) :
    connectedPorts (fanoutLog env directory acceptorName requesterName requesterRank ts) =
      ts.map (fun t => env.read directory (addressFileNameRanked acceptorName requesterName t)) := by
  induction ts with
  | nil => rfl
  | cons t rest ih => simp [fanoutLog, connectedPorts, ih]

theorem sentValues_fanoutLog (env : Requester) (directory acceptorName requesterName : String)
    (requesterRank : Int) (ts : List Int) :
    sentValues (fanoutLog env directory acceptorName requesterName requesterRank ts) =
      ts.map (fun _ => requesterRank) := by
  induction ts with
  | nil => rfl
  | cons t rest ih => simp [fanoutLog, sentValues, ih]

/-- The run of `requestConnectionAsClient` on an object that is not connected. -/
theorem requestConnectionAsClient_eq (env : Requester) (acceptorName requesterName : String)
    (acceptorRanks : StdSet) (requesterRank : Int) (r : Run)
    (hr : r.self.isConnected = false) :
    requestConnectionAsClient env acceptorName requesterName acceptorRanks requesterRank r =
      Outcome.returned
        { self := { r.self with
                    _portName :=
                      (acceptorRanks.elems.foldl
                        (clientBody env acceptorName requesterName requesterRank)
                        { r with self := { r.self with _isAcceptor := false } }).self._portName
                    _isAcceptor := false
                    _isConnected := true
                    _communicators :=
                      registerAll r.self._communicators
                        (acceptorRanks.elems.map (fun t =>
                          (env.connect (env.read r.self._addressDirectory
                            (addressFileNameRanked acceptorName requesterName t)), t))) },
          log := r.log ++ fanoutLog env r.self._addressDirectory acceptorName requesterName
                   requesterRank acceptorRanks.elems } := by
  obtain ⟨h1, h2, h3, h4, h5⟩ := clientBody_foldl env acceptorName requesterName requesterRank
    acceptorRanks.elems { r with self := { r.self with _isAcceptor := false } }
  unfold requestConnectionAsClient
  simp only [assertion, hr, Bool.not_false, if_true, pure, Except.pure]
  generalize (acceptorRanks.elems.foldl (clientBody env acceptorName requesterName requesterRank)
    { r with self := { r.self with _isAcceptor := false } }) = out at h1 h2 h3 h4 h5 ⊢
  obtain ⟨⟨d, pn, ia, ic, cm⟩, lg⟩ := out
  simp only at h1 h2 h3 h4 h5
  subst h1 h2 h4 h5
  rfl

/-- The run of `requestConnectionAsClient` on a new object: log, flag and keys. -/
theorem requestConnectionAsClient_fresh (env : Requester)
    (acceptorName requesterName addressDirectory : String) (acceptorRanks : StdSet)
    (requesterRank : Int) :
    ∃ r', requestConnectionAsClient env acceptorName requesterName acceptorRanks requesterRank
            (Run.fresh addressDirectory) = Outcome.returned r' ∧
      acceptorRanks.elems.Pairwise (fun a b => a < b) ∧
      r'.log = fanoutLog env (MPIPortsCommunication.new addressDirectory)._addressDirectory
                 acceptorName requesterName requesterRank acceptorRanks.elems ∧
      readKeys r'.log =
        acceptorRanks.elems.map (addressFileNameRanked acceptorName requesterName) ∧
      connectedPorts r'.log =
        acceptorRanks.elems.map (fun t =>
          env.read (MPIPortsCommunication.new addressDirectory)._addressDirectory
            (addressFileNameRanked acceptorName requesterName t)) ∧
      sentValues r'.log = acceptorRanks.elems.map (fun _ => requesterRank) ∧
      r'.self.isConnected = true ∧
      r'.self._communicators.keys = acceptorRanks.elems := by
  refine ⟨_, requestConnectionAsClient_eq env acceptorName requesterName acceptorRanks
    requesterRank (Run.fresh addressDirectory) rfl, acceptorRanks.ascending, ?_, ?_, ?_, ?_,
    rfl, ?_⟩
  · simp [Run.fresh]
  · simp [Run.fresh, readKeys_fanoutLog]
  · simp [Run.fresh, connectedPorts_fanoutLog]
  · simp [Run.fresh, sentValues_fanoutLog]
  · simp only [Run.fresh, MPIPortsCommunication.new]
    rw [keys_registerAll_ascending]
    · simp [StdMap.keys, List.map_map, Function.comp_def]
    · simpa [List.map_map, Function.comp_def] using acceptorRanks.ascending
    · intro x hx
      simp [StdMap.keys] at hx

/-- The map after the first `k` iterations of the range-for loop of
`requestConnectionAsClient` on a new object is keyed by the `k` smallest
targets. -/
theorem clientBody_foldl_take (env : Requester)
    (acceptorName requesterName addressDirectory : String) (acceptorRanks : StdSet)
    (requesterRank : Int) (k : Nat) :
    ((acceptorRanks.elems.take k).foldl
        (clientBody env acceptorName requesterName requesterRank)
        { (Run.fresh addressDirectory) with
          self := { (Run.fresh addressDirectory).self with _isAcceptor := false } }
      ).self._communicators.keys = acceptorRanks.elems.take k := by
  obtain ⟨_, _, _, h4, _⟩ := clientBody_foldl env acceptorName requesterName requesterRank
    (acceptorRanks.elems.take k)
    { (Run.fresh addressDirectory) with
      self := { (Run.fresh addressDirectory).self with _isAcceptor := false } }
  rw [h4]
  simp only [Run.fresh, MPIPortsCommunication.new]
  rw [keys_registerAll_ascending]
  · simp [StdMap.keys, List.map_map, Function.comp_def]
  · have hsub : (acceptorRanks.elems.take k).Pairwise (fun a b => a < b) :=
      List.Pairwise.sublist (List.take_sublist k _) acceptorRanks.ascending
    simpa [List.map_map, Function.comp_def] using hsub
  · intro x hx
    simp [StdMap.keys] at hx

/-- C6. `requestConnectionAsClient` on a new object, for every target set and
own rank: the call returns connected; its log is, target by target in the
set's strictly ascending order, read of the target's key, connect to the address
read, one send of the own rank; the key read for target t is the literal
"." + requesterName + "-" + acceptorName + "-" + t + ".address", and different
targets have different keys, so the keys read are pairwise distinct and name the
targets in ascending order; after the first k iterations the map is keyed by
the k smallest targets; and at the end the key list of the map is the element
list of the target set. -/
theorem requestConnectionAsClient_ascending (env : Requester)
    (acceptorName requesterName addressDirectory : String) (acceptorRanks : StdSet)
    (requesterRank : Int) :
    ∃ r', requestConnectionAsClient env acceptorName requesterName acceptorRanks requesterRank
            (Run.fresh addressDirectory) = Outcome.returned r' ∧
      acceptorRanks.elems.Pairwise (fun a b => a < b) ∧
      r'.log = fanoutLog env (MPIPortsCommunication.new addressDirectory)._addressDirectory
                 acceptorName requesterName requesterRank acceptorRanks.elems ∧
      readKeys r'.log =
        acceptorRanks.elems.map (addressFileNameRanked acceptorName requesterName) ∧
      connectedPorts r'.log =
        acceptorRanks.elems.map (fun t =>
          env.read (MPIPortsCommunication.new addressDirectory)._addressDirectory
            (addressFileNameRanked acceptorName requesterName t)) ∧
      sentValues r'.log = acceptorRanks.elems.map (fun _ => requesterRank) ∧
      r'.self.isConnected = true ∧
      r'.self._communicators.keys = acceptorRanks.elems ∧
      readKeys r'.log =
        acceptorRanks.elems.map (fun t =>
          "." ++ requesterName ++ "-" ++ acceptorName ++ "-" ++ toString t ++ ".address") ∧
      Function.Injective (addressFileNameRanked acceptorName requesterName) ∧
      (readKeys r'.log).Nodup ∧
      (∀ k, ((acceptorRanks.elems.take k).foldl
          (clientBody env acceptorName requesterName requesterRank)
          { (Run.fresh addressDirectory) with
            self := { (Run.fresh addressDirectory).self with _isAcceptor := false } }
        ).self._communicators.keys = acceptorRanks.elems.take k) := by
  obtain ⟨r', h1, h2, h3, h4, h5, h6, h7, h8⟩ := requestConnectionAsClient_fresh env
    acceptorName requesterName addressDirectory acceptorRanks requesterRank
  have hinj := addressFileNameRanked_injective acceptorName requesterName
  have hnodup : acceptorRanks.elems.Nodup := by
    have hlt := acceptorRanks.ascending
    unfold List.Nodup
    exact List.Pairwise.imp (fun hab => by omega) hlt
  refine ⟨r', h1, h2, h3, h4, h5, h6, h7, h8, ?_, hinj, ?_, ?_⟩
  · rw [h4]
    rfl
  · rw [h4]
    exact List.Nodup.map hinj hnodup
  · intro k
    exact clientBody_foldl_take env acceptorName requesterName addressDirectory
      acceptorRanks requesterRank k

/-- C6, at the set built from 3, 1, 2 and own rank 7: the keys read are those of
the targets 1, 2, 3 in this order, the own rank is sent three times, the map is
keyed 1, 2, 3, and after two iterations it is keyed 1, 2. -/
theorem requestConnectionAsClient_ascending_witness :
    ∃ r', requestConnectionAsClient sampleRequester "A" "R" (StdSet.ofList [3, 1, 2]) 7
            (Run.fresh "d") = Outcome.returned r' ∧
      readKeys r'.log = [".R-A-1.address", ".R-A-2.address", ".R-A-3.address"] ∧
      connectedPorts r'.log =
        ["d/.R-A-1.address", "d/.R-A-2.address", "d/.R-A-3.address"] ∧
      sentValues r'.log = [7, 7, 7] ∧
      r'.self.isConnected = true ∧
      r'.self._communicators.keys = [1, 2, 3] ∧
      (([1, 2] : List Int).foldl (clientBody sampleRequester "A" "R" 7)
          { (Run.fresh "d") with
            self := { (Run.fresh "d").self with _isAcceptor := false } }
        ).self._communicators.keys = [1, 2] := by
  obtain ⟨r', h1, _, _, _, h5, h6, h7, h8, h9, _, _, h12⟩ :=
    requestConnectionAsClient_ascending sampleRequester "A" "R" "d" (StdSet.ofList [3, 1, 2]) 7
  exact ⟨r', h1, h9, h5, h6, h7, h8, h12 2⟩

/-- The scenario of C6: the set built from 3, 1, 2 and own rank 7. The targets
are visited in the order 1, 2, 3 and the map is keyed 1, 2, 3. -/
theorem requestConnectionAsClient_example :
    (StdSet.ofList [3, 1, 2]).elems = [1, 2, 3] ∧
    (requestConnectionAsClient sampleRequester "A" "R" (StdSet.ofList [3, 1, 2]) 7
        (Run.fresh "d")).run.log =
      [Action.read "d" ".R-A-1.address" "d/.R-A-1.address",
       Action.connect "d/.R-A-1.address" (MPI_Comm.comm 1),
       Action.send (MPI_Comm.comm 1) 7,
       Action.read "d" ".R-A-2.address" "d/.R-A-2.address",
       Action.connect "d/.R-A-2.address" (MPI_Comm.comm 1),
       Action.send (MPI_Comm.comm 1) 7,
       Action.read "d" ".R-A-3.address" "d/.R-A-3.address",
       Action.connect "d/.R-A-3.address" (MPI_Comm.comm 1),
       Action.send (MPI_Comm.comm 1) 7] ∧
    (requestConnectionAsClient sampleRequester "A" "R" (StdSet.ofList [3, 1, 2]) 7
        (Run.fresh "d")).run.self._communicators.keys = [1, 2, 3] ∧
    (requestConnectionAsClient sampleRequester "A" "R" (StdSet.ofList [3, 1, 2]) 7
        (Run.fresh "d")).run.self.isConnected = true := by
  refine ⟨rfl, rfl, rfl, rfl⟩

/-! ## Teardown and the listening port -/

theorem closedPorts_append (l1 l2 : List Action) :
    closedPorts (l1 ++ l2) = closedPorts l1 ++ closedPorts l2 := by
  induction l1 with
  | nil => rfl
  | cons a rest ih =>
    cases a
    all_goals
      rw [List.cons_append]
      simp only [closedPorts]
      first
        | exact ih
        | (rw [ih]; rfl)

theorem closedPorts_disconnects (m : StdMap) :
    closedPorts (m.map (fun e => Action.disconnect e.2)) = [] := by
  induction m with
  | nil => rfl
  | cons e rest ih => simpa [closedPorts] using ih

theorem openedPorts_append (l1 l2 : List Action) :
    openedPorts (l1 ++ l2) = openedPorts l1 ++ openedPorts l2 := by
  induction l1 with
  | nil => rfl
  | cons a rest ih =>
    cases a
    all_goals
      rw [List.cons_append]
      simp only [openedPorts]
      first
        | exact ih
        | (rw [ih]; rfl)

theorem openedPorts_fanoutLog (env : Requester) (directory acceptorName requesterName : String)
    (requesterRank : Int) (ts : List Int) :
    openedPorts (fanoutLog env directory acceptorName requesterName requesterRank ts) = [] := by
  induction ts with
  | nil => rfl
  | cons t rest ih => simpa [fanoutLog, openedPorts] using ih

/-- The ports `closeConnection` closes: the object's port when it is connected
and the acceptor, none otherwise. -/
theorem closeConnection_closedPorts (r : Run) :
    closedPorts (closeConnection r).log =
      closedPorts r.log ++
        (if r.self._isConnected = true ∧ r.self._isAcceptor = true then [r.self._portName]
         else []) := by
  unfold closeConnection
  by_cases hc : r.self._isConnected = true
  · by_cases ha : r.self._isAcceptor = true
    · simp [MPIPortsCommunication.isConnected, hc, ha, Run.act, closedPorts_append,
        closedPorts_disconnects, closedPorts]
    · simp [MPIPortsCommunication.isConnected, hc, ha, closedPorts_append,
        closedPorts_disconnects]
  · simp [MPIPortsCommunication.isConnected, hc]

theorem closeConnection_not_connected (r : Run) (h : r.self._isConnected = false) :
    closeConnection r = r := by
  simp [closeConnection, MPIPortsCommunication.isConnected, h]

/-- How `acceptConnection` leaves an object that was not connected. -/
theorem acceptConnection_outcome (acceptorName requesterName port : String)
    (acceptorRank : Int) (incoming : List Incoming) (r : Run)
    (hr : r.self.isConnected = false) :
    ((acceptConnection acceptorName requesterName acceptorRank port incoming r).isReturned
        = true →
      (acceptConnection acceptorName requesterName acceptorRank port incoming
        r).run.self._isConnected = true) ∧
    ((acceptConnection acceptorName requesterName acceptorRank port incoming r).isReturned
        = false →
      (acceptConnection acceptorName requesterName acceptorRank port incoming
        r).run.self._isConnected = false) ∧
    (acceptConnection acceptorName requesterName acceptorRank port incoming
      r).run.self._isAcceptor = true ∧
    (acceptConnection acceptorName requesterName acceptorRank port incoming
      r).run.self._portName = port ∧
    Action.openPort port ∈
      (acceptConnection acceptorName requesterName acceptorRank port incoming r).run.log := by
  have hr' : r.self._isConnected = false := hr
  unfold acceptConnection
  simp only [assertion, hr, Bool.not_false, if_true, pure, Except.pure]
  obtain ⟨h1, h2, _, h4, h5⟩ := acceptLoop_frame acceptorRank incoming
    { peerCurrent := 0, peerCount := 0, requesterCommunicatorSize := 0 }
    (({ self := { { r.self with _isAcceptor := true } with _portName := port },
        log := r.log ++ [Action.openPort port] } : Run).act
      [Action.publish r.self._addressDirectory (addressFileName acceptorName requesterName) port])
  have h6 := acceptLoop_log acceptorRank incoming
    { peerCurrent := 0, peerCount := 0, requesterCommunicatorSize := 0 }
    (({ self := { { r.self with _isAcceptor := true } with _portName := port },
        log := r.log ++ [Action.openPort port] } : Run).act
      [Action.publish r.self._addressDirectory (addressFileName acceptorName requesterName) port])
    (Action.openPort port) (by simp [Run.act])
  simp only [Run.act, hr'] at h1 h2 h4 h5 h6 ⊢
  exact ⟨h4, h5, h1, h2, h6⟩

/-- How `acceptConnectionAsServer` leaves an object that was not connected. -/
theorem acceptConnectionAsServer_outcome (acceptorName requesterName port : String)
    (acceptorRank size : Int) (incoming : List Incoming) (r : Run)
    (hr : r.self.isConnected = false) :
    ((acceptConnectionAsServer acceptorName requesterName acceptorRank size port incoming
        r).isReturned = true →
      (acceptConnectionAsServer acceptorName requesterName acceptorRank size port incoming
          r).run.self._isConnected = true ∧
        (acceptConnectionAsServer acceptorName requesterName acceptorRank size port incoming
          r).run.self._isAcceptor = true ∧
        (acceptConnectionAsServer acceptorName requesterName acceptorRank size port incoming
          r).run.self._portName = port ∧
        Action.openPort port ∈
          (acceptConnectionAsServer acceptorName requesterName acceptorRank size port incoming
            r).run.log) ∧
    ((acceptConnectionAsServer acceptorName requesterName acceptorRank size port incoming
        r).isReturned = false →
      (acceptConnectionAsServer acceptorName requesterName acceptorRank size port incoming
        r).run.self._isConnected = false) := by
  have hr' : r.self._isConnected = false := hr
  by_cases hs : size ≤ 0
  · rw [acceptConnectionAsServer_rejects_nonpositive acceptorName requesterName port
      acceptorRank size incoming r hs]
    simp [Outcome.isReturned, Outcome.run, hr']
  · have hs' : size > 0 := by omega
    unfold acceptConnectionAsServer
    simp only [CHECK, hs', decide_True, assertion, hr, Bool.not_false, if_true, pure,
      Except.pure]
    obtain ⟨h1, h2, h3, h4, h5⟩ := serverLoop_frame size.toNat incoming
      (({ self := { { r.self with _isAcceptor := true } with _portName := port },
          log := r.log ++ [Action.openPort port] } : Run).act
        [Action.publish r.self._addressDirectory
          (addressFileNameRanked acceptorName requesterName acceptorRank) port])
    have h6 := h5 (Action.openPort port) (by simp [Run.act])
    simp only [Run.act, hr'] at h1 h2 h3 h4 h6 ⊢
    exact ⟨fun h => ⟨h3 h, h1, h2, h6⟩, h4⟩

/-- The run of `requestConnection` on an object that is not connected. -/
theorem requestConnection_eq (env : Requester) (acceptorName requesterName : String)
    (requesterRank requesterCommunicatorSize : Int) (r : Run)
    (hr : r.self.isConnected = false) :
    requestConnection env acceptorName requesterName requesterRank requesterCommunicatorSize r =
      Outcome.returned
        { self := { r.self with
                    _portName := env.read r.self._addressDirectory
                      (addressFileName acceptorName requesterName)
                    _isAcceptor := false
                    _isConnected := true
                    _communicators := r.self._communicators.assign 0
                      (env.connect (env.read r.self._addressDirectory
                        (addressFileName acceptorName requesterName))) },
          log := r.log ++
            [Action.read r.self._addressDirectory (addressFileName acceptorName requesterName)
               (env.read r.self._addressDirectory (addressFileName acceptorName requesterName)),
             Action.connect
               (env.read r.self._addressDirectory (addressFileName acceptorName requesterName))
               (env.connect (env.read r.self._addressDirectory
                 (addressFileName acceptorName requesterName))),
             Action.send (env.connect (env.read r.self._addressDirectory
                 (addressFileName acceptorName requesterName))) requesterRank,
             Action.send (env.connect (env.read r.self._addressDirectory
                 (addressFileName acceptorName requesterName))) requesterCommunicatorSize,
             Action.recv (env.connect (env.read r.self._addressDirectory
                 (addressFileName acceptorName requesterName)))
               (env.reply (env.connect (env.read r.self._addressDirectory
                 (addressFileName acceptorName requesterName))))] } := by
  unfold requestConnection
  simp [assertion, hr, pure, Except.pure, Run.act, Run.register]

/-- C8 as stated fails: `acceptConnection` whose first connection declares size
0 has opened the port when its `CHECK` fails; the destructor of that object
closes no port. -/
theorem destructor_leaves_port_of_failed_accept :
    (acceptConnection "A" "R" 0 "port" [declaring (MPI_Comm.comm 1) 4 0]
        (Run.fresh "")).isCheckFailed = true ∧
    openedPorts (acceptConnection "A" "R" 0 "port" [declaring (MPI_Comm.comm 1) 4 0]
        (Run.fresh "")).run.log = ["port"] ∧
    closedPorts (destructor (acceptConnection "A" "R" 0 "port"
        [declaring (MPI_Comm.comm 1) 4 0] (Run.fresh "")).run).log = [] := by
  decide

/-- C8 amended. For an object that is not connected when the call is made:
after `acceptConnection` or `acceptConnectionAsServer` has returned, the port
was opened and teardown closes exactly that port; after either call has ended
otherwise (failed check, blocked), teardown does nothing at all, also when
`acceptConnection` had opened the port; `requestConnection` and
`requestConnectionAsClient` return without opening a port and teardown closes
none. -/
theorem teardown_closes_port_of_connected_acceptor
    (env : Requester) (acceptorName requesterName port : String) (acceptorRank size : Int)
    (incoming : List Incoming) (acceptorRanks : StdSet)
    (requesterRank requesterCommunicatorSize : Int) (r : Run)
    (hr : r.self.isConnected = false) :
    ((acceptConnection acceptorName requesterName acceptorRank port incoming r).isReturned
        = true →
      Action.openPort port ∈
        (acceptConnection acceptorName requesterName acceptorRank port incoming r).run.log ∧
      closedPorts (destructor
        (acceptConnection acceptorName requesterName acceptorRank port incoming r).run).log =
        closedPorts
          (acceptConnection acceptorName requesterName acceptorRank port incoming r).run.log
          ++ [port]) ∧
    ((acceptConnection acceptorName requesterName acceptorRank port incoming r).isReturned
        = false →
      Action.openPort port ∈
        (acceptConnection acceptorName requesterName acceptorRank port incoming r).run.log ∧
      destructor (acceptConnection acceptorName requesterName acceptorRank port incoming r).run =
        (acceptConnection acceptorName requesterName acceptorRank port incoming r).run) ∧
    ((acceptConnectionAsServer acceptorName requesterName acceptorRank size port incoming
        r).isReturned = true →
      Action.openPort port ∈
        (acceptConnectionAsServer acceptorName requesterName acceptorRank size port incoming
          r).run.log ∧
      closedPorts (destructor
        (acceptConnectionAsServer acceptorName requesterName acceptorRank size port incoming
          r).run).log =
        closedPorts
          (acceptConnectionAsServer acceptorName requesterName acceptorRank size port incoming
            r).run.log ++ [port]) ∧
    ((acceptConnectionAsServer acceptorName requesterName acceptorRank size port incoming
        r).isReturned = false →
      destructor (acceptConnectionAsServer acceptorName requesterName acceptorRank size port
          incoming r).run =
        (acceptConnectionAsServer acceptorName requesterName acceptorRank size port incoming
          r).run) ∧
    ((requestConnection env acceptorName requesterName requesterRank
        requesterCommunicatorSize r).isReturned = true ∧
      openedPorts (requestConnection env acceptorName requesterName requesterRank
        requesterCommunicatorSize r).run.log = openedPorts r.log ∧
      closedPorts (destructor (requestConnection env acceptorName requesterName requesterRank
        requesterCommunicatorSize r).run).log =
        closedPorts (requestConnection env acceptorName requesterName requesterRank
          requesterCommunicatorSize r).run.log) ∧
    ((requestConnectionAsClient env acceptorName requesterName acceptorRanks
        requesterRank r).isReturned = true ∧
      openedPorts (requestConnectionAsClient env acceptorName requesterName acceptorRanks
        requesterRank r).run.log = openedPorts r.log ∧
      closedPorts (destructor (requestConnectionAsClient env acceptorName requesterName
        acceptorRanks requesterRank r).run).log =
        closedPorts (requestConnectionAsClient env acceptorName requesterName acceptorRanks
          requesterRank r).run.log) := by
  obtain ⟨a1, a2, a3, a4, a5⟩ := acceptConnection_outcome acceptorName requesterName port
    acceptorRank incoming r hr
  obtain ⟨s1, s2⟩ := acceptConnectionAsServer_outcome acceptorName requesterName port
    acceptorRank size incoming r hr
  refine ⟨?_, ?_, ?_, ?_, ?_, ?_⟩
  · intro h
    refine ⟨a5, ?_⟩
    rw [destructor, closeConnection_closedPorts, a1 h, a3, a4]
    simp
  · intro h
    exact ⟨a5, closeConnection_not_connected _ (a2 h)⟩
  · intro h
    obtain ⟨c1, c2, c3, c4⟩ := s1 h
    refine ⟨c4, ?_⟩
    rw [destructor, closeConnection_closedPorts, c1, c2, c3]
    simp
  · intro h
    exact closeConnection_not_connected _ (s2 h)
  · rw [requestConnection_eq env acceptorName requesterName requesterRank
      requesterCommunicatorSize r hr]
    refine ⟨rfl, ?_, ?_⟩
    · simp [Outcome.run, openedPorts_append, openedPorts]
    · rw [destructor, closeConnection_closedPorts]
      simp [Outcome.run]
  · rw [requestConnectionAsClient_eq env acceptorName requesterName acceptorRanks
      requesterRank r hr]
    refine ⟨rfl, ?_, ?_⟩
    · simp [Outcome.run, openedPorts_append, openedPorts_fanoutLog]
    · rw [destructor, closeConnection_closedPorts]
      simp [Outcome.run]

/-- C8 amended, on a new object: an acceptor connected to one peer has its port
closed by the destructor, a fan-out requester has none closed. -/
theorem teardown_closes_port_of_connected_acceptor_witness :
    closedPorts (destructor (acceptConnection "A" "R" 0 "port"
        [declaring (MPI_Comm.comm 1) 4 1] (Run.fresh "")).run).log =
      closedPorts (acceptConnection "A" "R" 0 "port"
        [declaring (MPI_Comm.comm 1) 4 1] (Run.fresh "")).run.log ++ ["port"] ∧
    closedPorts (destructor (requestConnectionAsClient sampleRequester "A" "R"
        (StdSet.ofList [3, 1, 2]) 7 (Run.fresh "")).run).log =
      closedPorts (requestConnectionAsClient sampleRequester "A" "R"
        (StdSet.ofList [3, 1, 2]) 7 (Run.fresh "")).run.log :=
  ⟨((teardown_closes_port_of_connected_acceptor sampleRequester "A" "R" "port" 0 1
      [declaring (MPI_Comm.comm 1) 4 1] (StdSet.ofList [3, 1, 2]) 7 1 (Run.fresh "")
      rfl).1 (by decide)).2,
   (teardown_closes_port_of_connected_acceptor sampleRequester "A" "R" "port" 0 1
      [declaring (MPI_Comm.comm 1) 4 1] (StdSet.ofList [3, 1, 2]) 7 1 (Run.fresh "")
      rfl).2.2.2.2.2.2.2⟩

/-! ## acceptConnectionAsServer against requestConnectionAsClient -/

theorem publishedKeys_serverLog (port : String) (ps : List (MPI_Comm × Int × List Int)) :
    publishedKeys (serverLog port ps) = [] := by
  induction ps with
  | nil => rfl
  | cons p rest ih => simpa [serverLog, publishedKeys] using ih

/-- A requester with `acceptorRank` among its targets sends its own rank first
on the handle of its connection to that acceptor. -/
theorem sentOn_fanoutLog (env : Requester) (directory acceptorName requesterName : String)
    (requesterRank acceptorRank : Int) (ts : List Int) (h : acceptorRank ∈ ts) :
    ∃ tail,
      sentOn (env.connect (env.read directory
          (addressFileNameRanked acceptorName requesterName acceptorRank)))
        (fanoutLog env directory acceptorName requesterName requesterRank ts) =
      requesterRank :: tail := by
  induction ts with
  | nil => simp at h
  | cons t rest ih =>
    simp only [fanoutLog, sentOn]
    by_cases hc : env.connect (env.read directory
        (addressFileNameRanked acceptorName requesterName t)) =
      env.connect (env.read directory
        (addressFileNameRanked acceptorName requesterName acceptorRank))
    · simp only [hc, if_true]
      exact ⟨_, rfl⟩
    · simp only [hc, if_false]
      rcases List.mem_cons.mp h with h' | h'
      · subst h'
        exact absurd rfl hc
      · exact ih h'

/-- The run of `acceptConnectionAsServer` on a new object, called with the number
of the peers that connect, each sending its rank first. -/
theorem acceptConnectionAsServer_good (acceptorName requesterName directory port : String)
    (acceptorRank : Int) (ps : List (MPI_Comm × Int × List Int)) (h : 0 < ps.length) :
    acceptConnectionAsServer acceptorName requesterName acceptorRank ps.length port
        (ps.map (fun p => { communicator := p.1, sent := p.2.1 :: p.2.2 }))
        (Run.fresh directory) =
      Outcome.returned
        { self := { (MPIPortsCommunication.new directory) with
                    _portName := port
                    _isAcceptor := true
                    _isConnected := true
                    _communicators := registerAll [] (ps.map (fun p => (p.1, p.2.1))) },
          log := [Action.openPort port,
                  Action.publish (MPIPortsCommunication.new directory)._addressDirectory
                    (addressFileNameRanked acceptorName requesterName acceptorRank) port] ++
                 serverLog port ps } := by
  have hpos : (ps.length : Int) > 0 := by omega
  unfold acceptConnectionAsServer
  simp only [CHECK, hpos, decide_True, assertion, Run.fresh, MPIPortsCommunication.new,
    MPIPortsCommunication.isConnected, Bool.not_false, if_true, pure, Except.pure,
    Int.toNat_ofNat]
  have hg := serverLoop_good [] ps
  simp only [List.append_nil] at hg
  rw [hg]
  simp [Run.act]

/-- C10. An acceptor of rank `acceptorRank` calls `acceptConnectionAsServer` with
the number n > 0 of requesters; the n requesters have pairwise distinct ranks and
each calls `requestConnectionAsClient` with a target set containing
`acceptorRank`, under the same names and directory; each connection reaches the
acceptor carrying what the requester sends on its handle for that target. Then
the acceptor returns connected, the one key it publishes is read by every
requester, its map is keyed exactly by the requesters' ranks (n unique keys), and
every requester returns connected with a map keyed exactly by its target set.
The published key is the literal
"." + requesterName + "-" + acceptorName + "-" + acceptorRank + ".address". -/
theorem server_client_roundtrip (acceptorName requesterName directory port : String)
    (acceptorRank : Int) (requesters : List FanoutPeer)
    (hn : 0 < requesters.length)
    (hdistinct : (requesters.map FanoutPeer.rank).Nodup)
    (htargets : ∀ q ∈ requesters, acceptorRank ∈ q.targets.elems) :
    ∃ ra, acceptConnectionAsServer acceptorName requesterName acceptorRank requesters.length
            port
            (requesters.map
              (fun q => q.incomingAt acceptorName requesterName directory acceptorRank))
            (Run.fresh directory) = Outcome.returned ra ∧
      publishedKeys ra.log = [addressFileNameRanked acceptorName requesterName acceptorRank] ∧
      publishedKeys ra.log =
        ["." ++ requesterName ++ "-" ++ acceptorName ++ "-" ++ toString acceptorRank
          ++ ".address"] ∧
      ra.self.isConnected = true ∧
      (∀ k, k ∈ ra.self._communicators.keys ↔ k ∈ requesters.map FanoutPeer.rank) ∧
      ra.self._communicators.size = requesters.length ∧
      ra.self._communicators.WF ∧
      ∀ q ∈ requesters, ∃ rq,
        q.call acceptorName requesterName directory = Outcome.returned rq ∧
        addressFileNameRanked acceptorName requesterName acceptorRank ∈ readKeys rq.log ∧
        rq.self.isConnected = true ∧
        rq.self._communicators.keys = q.targets.elems := by
  have hcall : ∀ q : FanoutPeer, ∃ rq,
      q.call acceptorName requesterName directory = Outcome.returned rq ∧
      rq.log = fanoutLog q.env (MPIPortsCommunication.new directory)._addressDirectory
        acceptorName requesterName q.rank q.targets.elems ∧
      readKeys rq.log = q.targets.elems.map (addressFileNameRanked acceptorName requesterName) ∧
      rq.self.isConnected = true ∧
      rq.self._communicators.keys = q.targets.elems := by
    intro q
    obtain ⟨rq, h1, _, h3, h4, _, _, h7, h8⟩ := requestConnectionAsClient_fresh q.env
      acceptorName requesterName directory q.targets q.rank
    exact ⟨rq, h1, h3, h4, h7, h8⟩
  have hsent : ∀ q ∈ requesters,
      q.incomingAt acceptorName requesterName directory acceptorRank =
        { communicator := q.acceptedAs,
          sent := q.rank ::
            (q.incomingAt acceptorName requesterName directory acceptorRank).sent.tail } := by
    intro q hq
    obtain ⟨rq, h1, h2, _⟩ := hcall q
    obtain ⟨tail, ht⟩ := sentOn_fanoutLog q.env
      (MPIPortsCommunication.new directory)._addressDirectory acceptorName requesterName
      q.rank acceptorRank q.targets.elems (htargets q hq)
    have : (q.incomingAt acceptorName requesterName directory acceptorRank).sent
        = q.rank :: tail := by
      simp only [FanoutPeer.incomingAt, h1, Outcome.run, h2, Run.fresh]
      exact ht
    simp [FanoutPeer.incomingAt] at this ⊢
    rw [this]
    rfl
  have hmap : requesters.map
        (fun q => q.incomingAt acceptorName requesterName directory acceptorRank) =
      (requesters.map (fun q => (q.acceptedAs, q.rank,
          (q.incomingAt acceptorName requesterName directory acceptorRank).sent.tail))).map
        (fun p => ({ communicator := p.1, sent := p.2.1 :: p.2.2 } : Incoming)) := by
    rw [List.map_map]
    apply List.map_congr_left
    intro q hq
    exact hsent q hq
  have hlen : (requesters.map (fun q => (q.acceptedAs, q.rank,
      (q.incomingAt acceptorName requesterName directory acceptorRank).sent.tail))).length
      = requesters.length := by simp
  have hgood := acceptConnectionAsServer_good acceptorName requesterName directory port
    acceptorRank (requesters.map (fun q => (q.acceptedAs, q.rank,
      (q.incomingAt acceptorName requesterName directory acceptorRank).sent.tail)))
    (by rw [hlen]; exact hn)
  rw [hlen, ← hmap] at hgood
  have hranks : (requesters.map (fun q => (q.acceptedAs, q.rank,
        (q.incomingAt acceptorName requesterName directory acceptorRank).sent.tail))).map
        (fun p => (p.1, p.2.1)) =
      requesters.map (fun q => (q.acceptedAs, q.rank)) := by
    simp [List.map_map, Function.comp_def]
  have hsnd : (requesters.map (fun q => (q.acceptedAs, q.rank))).map Prod.snd =
      requesters.map FanoutPeer.rank := by
    simp [List.map_map, Function.comp_def]
  rw [hranks] at hgood
  refine ⟨_, hgood, ?_, ?_, rfl, ?_, ?_, ?_, ?_⟩
  · simp [publishedKeys, publishedKeys_serverLog]
  · simp [publishedKeys, publishedKeys_serverLog, addressFileNameRanked]
  · intro k
    simp only
    rw [mem_keys_registerAll, hsnd]
    simp [StdMap.keys]
  · simp only
    rw [size_registerAll _ [] (by rw [hsnd]; exact hdistinct)
      (by intro k _; simp [StdMap.keys])]
    simp [StdMap.size]
  · exact WF_registerAll _ [] (by simp [StdMap.WF, StdMap.keys])
  · intro q hq
    obtain ⟨rq, h1, _, h3, h4, h5⟩ := hcall q
    refine ⟨rq, h1, ?_, h4, h5⟩
    rw [h3]
    exact List.mem_map.mpr ⟨acceptorRank, htargets q hq, rfl⟩

/-- C10, at acceptor rank 0 and the two requesters of ranks 5 and 9 with target
set holding 0: the acceptor's map is keyed 5, 9 and each requester's map is
keyed 0. -/
theorem server_client_roundtrip_witness :
    (0 < sampleRequesters.length ∧
      (sampleRequesters.map FanoutPeer.rank).Nodup ∧
      ∀ q ∈ sampleRequesters, (0 : Int) ∈ q.targets.elems) ∧
    (∃ ra, acceptConnectionAsServer "A" "R" 0 sampleRequesters.length "port"
            (sampleRequesters.map (fun q => q.incomingAt "A" "R" "G" 0))
            (Run.fresh "G") = Outcome.returned ra ∧
      publishedKeys ra.log = [addressFileNameRanked "A" "R" 0] ∧
      publishedKeys ra.log = ["." ++ "R" ++ "-" ++ "A" ++ "-" ++ toString (0 : Int) ++ ".address"] ∧
      ra.self.isConnected = true ∧
      (∀ k, k ∈ ra.self._communicators.keys ↔ k ∈ sampleRequesters.map FanoutPeer.rank) ∧
      ra.self._communicators.size = sampleRequesters.length ∧
      ra.self._communicators.WF ∧
      ∀ q ∈ sampleRequesters, ∃ rq,
        q.call "A" "R" "G" = Outcome.returned rq ∧
        addressFileNameRanked "A" "R" 0 ∈ readKeys rq.log ∧
        rq.self.isConnected = true ∧
        rq.self._communicators.keys = q.targets.elems) ∧
    (acceptConnectionAsServer "A" "R" 0 sampleRequesters.length "port"
        (sampleRequesters.map (fun q => q.incomingAt "A" "R" "G" 0))
        (Run.fresh "G")).run.self._communicators.keys = [5, 9] ∧
    sampleRequesters.map (fun q => (q.call "A" "R" "G").run.self._communicators.keys)
      = [[0], [0]] :=
  ⟨⟨by decide, by decide, by decide⟩,
   server_client_roundtrip "A" "R" "G" "port" 0 sampleRequesters (by decide) (by decide)
     (by decide),
   rfl, rfl⟩

end com
end precice
